import Mathlib

/-!
# PC power controller (boards/lolin32/src/main.cpp)

A shallow embedding of the sketch `main.cpp`: the global variables become the
record `State`, every function of the sketch becomes a function on `State`
that also returns the list of externally visible effects it performs
(pin writes, delays, MQTT publishes and subscriptions, device restart), and
everything the sketch reads from its environment (clock, input pin, sensor,
connection attempts, inbound messages) is an explicit input.

Conventions of the embedding

* `unsigned char` and `uint16_t` values are natural numbers; a conversion or an
  increment that can leave the range is written with an explicit `% 256` or
  `% 65536`.
* `long` time stamps are integers.  Readings of `millis()` are taken to lie
  below `2^31`, where the conversion to `long` is the identity and the `long`
  subtractions of the sketch cannot overflow.
* `float` temperatures are exact rationals.
* `Serial` output is diagnostic only and is left out of the effect list.
* `main.h` is not part of the sources: its numeric and string macros are the
  fields of `Config`, its pin, level and topic macros are the constructors of
  `Pin`, `Level` and `OutTopic`.
-/

set_option linter.unusedVariables false

namespace PcPower

/-! ## Effects and configuration -/

/-- Output pins named by the macros of `main.h`; the two macros are taken to
denote two different pins. -/
inductive Pin where
  | GPIO_OUT_PWSW
  | GPIO_OUT_RTSW
  deriving DecidableEq

/-- Output levels named by the macros of `main.h`. -/
inductive Level where
  | OUT_STATE_ACTIVE
  | OUT_STATE_INACTIVE
  deriving DecidableEq

/-- Outbound topics named by the macros of `main.h`; the three macros are taken
to denote three different topics. -/
inductive OutTopic where
  | TOPIC_OUT_CONN
  | TOPIC_OUT_PC_STATUS
  | TOPIC_OUT_TEMP
  deriving DecidableEq

/-- Externally visible actions of the sketch. -/
inductive Effect where
  | digitalWrite (pin : Pin) (level : Level)
  | delay (ms : Int)
  | publish (topic : OutTopic) (payload : String)
  | subscribe (topic : String)
  | restart
  deriving DecidableEq

/-- The numeric and string macros of `main.h` used by `main.cpp`. -/
structure Config where
  TOPIC_IN_PC_STATE : String
  TOPIC_IN_PC_RESET : String
  MQTT_CLIENT_ID : String
  IN_STATUS_INVERTED : Bool
  TOGGLE_ON : Int
  TOGGLE_OFF : Int
  DEBOUNCE_STATUS_MS : Int
  PUB_MIN_MS : Int
  PUB_PERIODIC_MS : Int
  TEMP_REFRESH_MS : Int
  PUB_TEMP_THRESHOLD : ℚ

/-- Modelled from the spec: the enumeration `PubData_e` of `main.h`, whose
periodic categories are the status and the temperature, followed by the marker
`PUB_DATA_MAX` that closes the enumeration. -/
def PUB_DATA_PC_STATUS : Nat := 0

/-- Modelled from the spec: second category of `PubData_e` (see
`PUB_DATA_PC_STATUS`). -/
def PUB_DATA_TEMP : Nat := 1

/-- Modelled from the spec: the closing marker of `PubData_e` (see
`PUB_DATA_PC_STATUS`). -/
def PUB_DATA_MAX : Nat := 2

/-! ## Global variables -/

/-- The global variables of `main.cpp` (lines 33-48). -/
structure State where
  connect_cnt : Nat
  sync_cnt : Nat
  current_pc_status : Nat
  last_read_status : Nat
  last_published_status : Nat
  last_status_unstable_ms : Int
  current_temp : ℚ
  last_published_temp : ℚ
  last_temp_request_ms : Int
  last_published_ms : Int
  data_to_publish : Nat
  is_syncing : Nat
  deriving DecidableEq

/-- The initialisers of the global variables. -/
def State.init : State where
  connect_cnt := 0
  sync_cnt := 0
  current_pc_status := 255
  last_read_status := 255
  last_published_status := 255
  last_status_unstable_ms := 0
  current_temp := -127
  last_published_temp := -127
  last_temp_request_ms := 0
  last_published_ms := 0
  data_to_publish := PUB_DATA_PC_STATUS
  is_syncing := 0

/-! ## Actuators -/

/-- `TogglePc(state)`: one pulse on the power-switch line, held for `state`
milliseconds. -/
def TogglePc (state : Int) : List Effect :=
  [Effect.digitalWrite Pin.GPIO_OUT_PWSW Level.OUT_STATE_ACTIVE,
   Effect.delay state,
   Effect.digitalWrite Pin.GPIO_OUT_PWSW Level.OUT_STATE_INACTIVE]

/-- `ResetPc()`: one pulse on the reset-switch line, held for `TOGGLE_ON`
milliseconds. -/
def ResetPc (cfg : Config) : List Effect :=
  [Effect.digitalWrite Pin.GPIO_OUT_RTSW Level.OUT_STATE_ACTIVE,
   Effect.delay cfg.TOGGLE_ON,
   Effect.digitalWrite Pin.GPIO_OUT_RTSW Level.OUT_STATE_INACTIVE]

/-! ## Inbound commands -/

/-- `Subscription_Callback(topic, payload, length)`.  The pointer `payload` is
the function from offsets to bytes; the sketch reads `payload[0]` whatever
`length` is.  The bytes 116 and 102 are the characters `t` and `f`. -/
def Subscription_Callback (cfg : Config) (st : State) (topic : String)
    (payload : Nat → Nat) (length : Nat) : State × List Effect :=
  if cfg.TOPIC_IN_PC_STATE = topic then
    let target_state : Nat :=
      if payload 0 = 116 then 1
      else if payload 0 = 102 then 0
      else st.current_pc_status
    if target_state ≠ st.current_pc_status then
      if target_state = 1 then (st, TogglePc cfg.TOGGLE_ON)
      else (st, TogglePc cfg.TOGGLE_OFF)
    else (st, [])
  else if cfg.TOPIC_IN_PC_RESET = topic then
    let reset : Nat := if payload 0 = 116 then 1 else 0
    if st.current_pc_status = 1 then
      let reset : Nat := 0
      (st, ResetPc cfg)
    else (st, [])
  else (st, [])

/-! ## Publishing -/

/-- `Publish_Connection(text)`. -/
def Publish_Connection (text : String) : List Effect :=
  [Effect.publish OutTopic.TOPIC_OUT_CONN text]

/-- `Publish_PcStatus(pc_status)`: the payload is the decimal rendering of the
byte; the published value is remembered. -/
def Publish_PcStatus (st : State) (pc_status : Nat) : State × List Effect :=
  ({ st with last_published_status := pc_status },
   [Effect.publish OutTopic.TOPIC_OUT_PC_STATUS (toString pc_status)])

/-- Conversion of a `float` to an integer type: the fractional part is
discarded (truncation towards zero). -/
def truncate (x : ℚ) : Int :=
  if 0 ≤ x then ⌊x⌋ else ⌈x⌉

/-- Storing an integer in an `int16_t`.  The C conversion of a `float` outside
the range is undefined; the model wraps. -/
def toInt16 (z : Int) : Int :=
  (z + 32768) % 65536 - 32768

/-- The value of the local `temp_i16` of `Publish_Temperature(temp)`
(lines 225-228). -/
def temp_i16 (temp : ℚ) : Int :=
  if temp ≥ 0 then toInt16 (truncate (temp + 5 / 100))
  else toInt16 (truncate (temp - 5 / 100))

/-- `Publish_Temperature(temp)`: the payload is `temp_i16` printed with `%d`;
the reading itself is remembered. -/
def Publish_Temperature (st : State) (temp : ℚ) : State × List Effect :=
  ({ st with last_published_temp := temp },
   [Effect.publish OutTopic.TOPIC_OUT_TEMP (toString (temp_i16 temp))])

/-! ## Connection handling -/

/-- One turn of the `while` loop of `Mqtt_Reconnect`: the result of
`client.connect` and, for a failed attempt, the reading of `millis()` in the
timeout check that follows the five-second delay. -/
structure Attempt where
  connect_ok : Bool
  millis_after : Nat

/-- How a call of `Mqtt_Reconnect` ends: it returns after a successful
attempt, it restarts the device (and never returns), or it is still retrying
when the supplied attempts are used up. -/
inductive Reconnect where
  | connected (trace : List Effect)
  | restarted (trace : List Effect)
  | retrying (trace : List Effect)
  deriving DecidableEq

/-- Effects performed before the rest of a reconnect run. -/
def Reconnect.after (pre : List Effect) : Reconnect → Reconnect
  | Reconnect.connected tr => Reconnect.connected (pre ++ tr)
  | Reconnect.restarted tr => Reconnect.restarted (pre ++ tr)
  | Reconnect.retrying tr => Reconnect.retrying (pre ++ tr)

/-- `Mqtt_Reconnect()`, entered with the client disconnected; the client stays
disconnected until a `client.connect` succeeds.  `millis_start` is the
`uint32_t` reading taken on entry, the elapsed time is computed modulo `2^32`.
The announcement is the client id cut to the 29 characters that fit
`tmp_str`. -/
def Mqtt_Reconnect (cfg : Config) (millis_start : Nat) : List Attempt → Reconnect
  | [] => Reconnect.retrying []
  | a :: rest =>
    if a.connect_ok then
      Reconnect.connected
        (Publish_Connection (cfg.MQTT_CLIENT_ID.take 29) ++
          [Effect.subscribe cfg.TOPIC_IN_PC_STATE, Effect.subscribe cfg.TOPIC_IN_PC_RESET])
    else if (a.millis_after % 4294967296 + 4294967296 - millis_start % 4294967296) % 4294967296
        > 2 * 60000 then
      Reconnect.restarted [Effect.delay 5000, Effect.restart]
    else
      (Mqtt_Reconnect cfg millis_start rest).after [Effect.delay 5000]

/-! ## The main loop -/

/-- An inbound message handed to the callback by `client.loop()`. -/
structure Message where
  topic : String
  payload : Nat → Nat
  length : Nat

/-- What the environment supplies to the reconnect branch of `loop()` when the
client is found disconnected: the clock on entry of `Mqtt_Reconnect`, the
connection attempts, and the clock read on line 91. -/
structure ReconnectInput where
  millis_start : Nat
  attempts : List Attempt
  ms_reconnected : Int

/-- Everything one pass of `loop()` reads from its environment.
`reconnect = none` means `client.connected()` holds. -/
structure TickInput where
  reconnect : Option ReconnectInput
  inbox : List Message
  ms_temp_check : Int
  dht_temperature : ℚ
  ms_temp_request : Int
  now_ms : Int
  raw_status : Nat

/-- Lines 88-92 of `loop()`: `none` when `Mqtt_Reconnect` does not return. -/
def loop_connection (cfg : Config) (inp : TickInput) (st : State) :
    Option (State × List Effect) :=
  match inp.reconnect with
  | none => some (st, [])
  | some r =>
    match Mqtt_Reconnect cfg r.millis_start r.attempts with
    | Reconnect.connected tr =>
      some ({ st with connect_cnt := (st.connect_cnt + 1) % 65536,
                      last_published_ms := r.ms_reconnected,
                      last_status_unstable_ms := r.ms_reconnected }, tr)
    | Reconnect.restarted _ => none
    | Reconnect.retrying _ => none

/-- Line 93, `client.loop()`: the callback runs once for every delivered
message. -/
def client_loop (cfg : Config) : List Message → State → State × List Effect
  | [], st => (st, [])
  | m :: rest, st =>
    let r1 := Subscription_Callback cfg st m.topic m.payload m.length
    let r2 := client_loop cfg rest r1.1
    (r2.1, r1.2 ++ r2.2)

/-- Lines 96-106 of `loop()`: the temperature refresh.  The comparison is done
on `unsigned long`, that is modulo `2^32`. -/
def loop_temperature (cfg : Config) (inp : TickInput) (st : State) : State :=
  if (inp.ms_temp_check - st.last_temp_request_ms) % 4294967296
      > cfg.TEMP_REFRESH_MS % 4294967296 then
    { st with current_temp := inp.dht_temperature,
              last_temp_request_ms := inp.ms_temp_request }
  else st

/-- Lines 111-114 of `loop()`: the sample stored in the `unsigned char`
`tmp_status`, inverted when `IN_STATUS_INVERTED` is set. -/
def tmp_status (cfg : Config) (raw : Nat) : Nat :=
  if cfg.IN_STATUS_INVERTED then (if raw % 256 = 0 then 1 else 0) else raw % 256

/-- Lines 116-129 of `loop()`: the debounce of the status input. -/
def loop_debounce (cfg : Config) (tmp : Nat) (now_ms : Int) (st : State) : State :=
  let st1 : State :=
    if tmp ≠ st.last_read_status then
      { st with last_status_unstable_ms := now_ms, last_read_status := tmp }
    else st
  if now_ms - st1.last_status_unstable_ms > cfg.DEBOUNCE_STATUS_MS then
    if st1.current_pc_status ≠ tmp then { st1 with current_pc_status := tmp }
    else st1
  else st1

/-- Lines 131-161 of `loop()`: the publish scheduling block. -/
def loop_publish (cfg : Config) (now_ms : Int) (st : State) : State × List Effect :=
  if now_ms - st.last_published_ms > cfg.PUB_MIN_MS then
    if st.current_pc_status ≠ st.last_published_status then
      let r := Publish_PcStatus st st.current_pc_status
      ({ r.1 with last_published_ms := now_ms }, r.2)
    else if |st.current_temp - st.last_published_temp| > cfg.PUB_TEMP_THRESHOLD then
      let r := Publish_Temperature st st.current_temp
      ({ r.1 with last_published_ms := now_ms }, r.2)
    else if st.is_syncing ≠ 0 then
      let cnt : Nat := (st.sync_cnt + 1) % 65536
      ({ st with sync_cnt := cnt, is_syncing := 0 },
       Publish_Connection ("Synced(" ++ toString cnt ++ ")"))
    else if now_ms - st.last_published_ms > cfg.PUB_PERIODIC_MS then
      let d : Nat := if st.data_to_publish ≥ PUB_DATA_MAX then PUB_DATA_PC_STATUS
                     else st.data_to_publish
      let r : State × List Effect :=
        if d = PUB_DATA_PC_STATUS then Publish_PcStatus st st.current_pc_status
        else if d = PUB_DATA_TEMP then Publish_Temperature st st.current_temp
        else (st, [])
      ({ r.1 with data_to_publish := d + 1, last_published_ms := now_ms }, r.2)
    else (st, [])
  else (st, [])

/-- Lines 88-129 of `loop()`: everything before the publish scheduling
block. -/
def loop_head (cfg : Config) (inp : TickInput) (st : State) :
    Option (State × List Effect) :=
  match loop_connection cfg inp st with
  | none => none
  | some (st1, tr1) =>
    let r2 := client_loop cfg inp.inbox st1
    let st3 := loop_temperature cfg inp r2.1
    let st4 := loop_debounce cfg (tmp_status cfg inp.raw_status) inp.now_ms st3
    some (st4, tr1 ++ r2.2)

/-- One pass of `loop()`: `none` when `Mqtt_Reconnect` does not return. -/
def loop (cfg : Config) (inp : TickInput) (st : State) : Option (State × List Effect) :=
  match loop_head cfg inp st with
  | none => none
  | some (st1, tr1) =>
    let r := loop_publish cfg inp.now_ms st1
    some (r.1, tr1 ++ r.2)

/-! ## Executions -/

/-- Consecutive passes of `loop()`, each started in the state the previous one
left; `none` when some pass does not return. -/
def runLoop (cfg : Config) : State → List TickInput → Option State
  | st, [] => some st
  | st, inp :: rest =>
    match loop cfg inp st with
    | none => none
    | some r => runLoop cfg r.1 rest

/-- The clock of one pass does not run backwards: the readings that reach the
debounce and publish logic follow `prev`, the value of `now_ms` in the previous
pass, in program order. -/
def TickInput.clockOk (prev : Int) (inp : TickInput) : Prop :=
  match inp.reconnect with
  | none => prev ≤ inp.now_ms
  | some r => prev ≤ r.ms_reconnected ∧ r.ms_reconnected ≤ inp.now_ms

/-- Non-decreasing time stamps along a sequence of passes that starts after
time `prev`. -/
def Timed : Int → List TickInput → Prop
  | _, [] => True
  | prev, inp :: rest => inp.clockOk prev ∧ Timed inp.now_ms rest

/-- Every run of consecutive samples that differ from `s` lasts less than the
debounce window: in whatever way the inputs split into `pre ++ seg ++ post`
with all samples of `seg` different from `s`, the last pass of `seg` comes
less than `DEBOUNCE_STATUS_MS` after its first pass. -/
def ShortRuns (cfg : Config) (s : Nat) (inputs : List TickInput) : Prop :=
  ∀ (pre seg post : List TickInput) (a b : TickInput),
    inputs = pre ++ seg ++ post →
    (∀ x ∈ seg, tmp_status cfg x.raw_status ≠ s) →
    seg.head? = some a → seg.getLast? = some b →
    b.now_ms - a.now_ms < cfg.DEBOUNCE_STATUS_MS

/-- The effects of each completed pass of an execution. -/
def traces (cfg : Config) : State → List TickInput → List (List Effect)
  | _, [] => []
  | st, inp :: rest =>
    match loop cfg inp st with
    | none => []
    | some r => r.2 :: traces cfg r.1 rest

/-! ## Sample configuration and spec-side definitions -/

/-- A configuration used for concrete runs: a 300 ms debounce window, a
half-degree threshold, one second between publishes. -/
def Config.sample : Config where
  TOPIC_IN_PC_STATE := "pc/state"
  TOPIC_IN_PC_RESET := "pc/reset"
  MQTT_CLIENT_ID := "lolin32"
  IN_STATUS_INVERTED := false
  TOGGLE_ON := 500
  TOGGLE_OFF := 5000
  DEBOUNCE_STATUS_MS := 300
  PUB_MIN_MS := 1000
  PUB_PERIODIC_MS := 60000
  TEMP_REFRESH_MS := 2000
  PUB_TEMP_THRESHOLD := 1 / 2

/-- The payload buffer holding the bytes of `bytes`, zero beyond them. -/
def bufferOf (bytes : List Nat) : Nat → Nat :=
  fun i => bytes.getD i 0

/-- Spec side of the power command: the target named by the first payload
byte, `t` for on, `f` for off, none for anything else. -/
def resolveTarget (b : Nat) : Option Nat :=
  if b = 116 then some 1 else if b = 102 then some 0 else none

/-- A state in which a status change and a temperature change are both due,
with a sync pending as well. -/
def State.tie : State :=
  { State.init with
    current_pc_status := 1, last_published_status := 0,
    current_temp := 25, last_published_temp := 20, is_syncing := 1 }

/-- A state whose reading is the not-ready value while 20 degrees were
published last. -/
def State.sensorLost : State :=
  { State.init with
    current_pc_status := 1, last_read_status := 1, last_published_status := 1,
    current_temp := -127, last_published_temp := 20 }

/-- A state whose reading and last published temperature are both the
not-ready value, with the periodic cursor on the temperature. -/
def State.sensorNeverRead : State :=
  { State.init with
    current_pc_status := 1, last_read_status := 1, last_published_status := 1,
    data_to_publish := PUB_DATA_TEMP }

/-- A pass with the client connected, no inbound message, the sensor at 20
degrees, and every clock reading equal to `now`. -/
def TickInput.quiet (now : Int) (raw : Nat) : TickInput where
  reconnect := none
  inbox := []
  ms_temp_check := now
  dht_temperature := 20
  ms_temp_request := now
  now_ms := now
  raw_status := raw

/-- A state settled on status `s`, at time 0. -/
def State.settled (s : Nat) : State :=
  { State.init with current_pc_status := s, last_read_status := s, last_published_status := s }

/-- A glitch on a line settled at 0: the input reads 0, 1, 0 within 50 ms. -/
def glitch : List TickInput :=
  [TickInput.quiet 1000 0, TickInput.quiet 1020 1, TickInput.quiet 1050 0]

/-- After the glitch the input reads 1 at 1060 ms and keeps reading 1. -/
def holdOne : List TickInput :=
  [TickInput.quiet 1060 1, TickInput.quiet 1200 1, TickInput.quiet 1360 1]

/-- The first pass after power-up: the client is disconnected, two connection
attempts fail, the third succeeds, and the pass goes on at 10500 ms with the
input reading 1 and the sensor at 20 degrees. -/
def TickInput.boot : TickInput where
  reconnect := some
    { millis_start := 100,
      attempts := [{ connect_ok := false, millis_after := 5200 },
                   { connect_ok := false, millis_after := 10300 },
                   { connect_ok := true, millis_after := 10400 }],
      ms_reconnected := 10500 }
  inbox := []
  ms_temp_check := 10500
  dht_temperature := 20
  ms_temp_request := 10500
  now_ms := 10500
  raw_status := 1

/-- The passes from power-up: the reconnecting pass, then connected passes at
11000, 11600, 12700 and 13800 ms. -/
def bootRun : List TickInput :=
  [TickInput.boot, TickInput.quiet 11000 1, TickInput.quiet 11600 1,
   TickInput.quiet 12700 1, TickInput.quiet 13800 1]

/-! ## Definitions for the rotation, the status payload and the pulses -/

/-- The branches of the ladder of the publish scheduling block. -/
inductive Branch where
  | idle
  | status
  | temperature
  | sync
  | periodic
  deriving DecidableEq

/-- The branch of the ladder of lines 132-161 that a pass takes: the guards of
`loop_publish`, in the order in which the sketch tests them. -/
def publishBranch (cfg : Config) (now_ms : Int) (st : State) : Branch :=
  if now_ms - st.last_published_ms > cfg.PUB_MIN_MS then
    if st.current_pc_status ≠ st.last_published_status then Branch.status
    else if |st.current_temp - st.last_published_temp| > cfg.PUB_TEMP_THRESHOLD then
      Branch.temperature
    else if st.is_syncing ≠ 0 then Branch.sync
    else if now_ms - st.last_published_ms > cfg.PUB_PERIODIC_MS then Branch.periodic
    else Branch.idle
  else Branch.idle

/-- For each completed pass of an execution: the value of `now_ms`, the state
on entry of the publish scheduling block, and the effects of the block. -/
def blockRuns (cfg : Config) : State → List TickInput → List (Int × State × List Effect)
  | _, [] => []
  | st, inp :: rest =>
    match loop_head cfg inp st with
    | none => []
    | some r1 =>
      (inp.now_ms, r1.1, (loop_publish cfg inp.now_ms r1.1).2) ::
        blockRuns cfg (loop_publish cfg inp.now_ms r1.1).1 rest

/-- The effects of the publish scheduling block in the passes that take the
periodic branch, in the order of the execution. -/
def periodicLog (cfg : Config) (st : State) (ticks : List TickInput) : List (List Effect) :=
  ((blockRuns cfg st ticks).filter
    (fun e => decide (publishBranch cfg e.1 e.2.1 = Branch.periodic))).map (fun e => e.2.2)

/-- For each completed pass of an execution: the value of `now_ms`, and
`current_pc_status` before and after the pass. -/
def statusLog (cfg : Config) : State → List TickInput → List (Int × Nat × Nat)
  | _, [] => []
  | st, inp :: rest =>
    match loop cfg inp st with
    | none => []
    | some r =>
      (inp.now_ms, st.current_pc_status, r.1.current_pc_status) :: statusLog cfg r.1 rest

/-- The level of `pin` after the effects of `trace`, when it was `level`
before: the level of the last write to the pin. -/
def pinLevel (pin : Pin) (level : Level) : List Effect → Level
  | [] => level
  | Effect.digitalWrite p l :: rest =>
    if p = pin then pinLevel pin l rest else pinLevel pin level rest
  | _ :: rest => pinLevel pin level rest

/-- The pins written by the effects of `trace`. -/
def pinsWritten : List Effect → List Pin
  | [] => []
  | Effect.digitalWrite p _ :: rest => p :: pinsWritten rest
  | _ :: rest => pinsWritten rest

/-- The elapsed time that the timeout check of `Mqtt_Reconnect` computes after
a failed attempt, on `uint32_t`. -/
def elapsed32 (millis_start : Nat) (a : Attempt) : Nat :=
  (a.millis_after % 4294967296 + 4294967296 - millis_start % 4294967296) % 4294967296

/-- Noise on the input for more than the periodic interval: a pass at 61000 ms
reading 0 and a pass at 122001 ms reading 1. -/
def noisyTicks : List TickInput :=
  [TickInput.quiet 61000 0, TickInput.quiet 122001 1]

/-- Passes from power-up in which the status and the temperature are
published on change, followed by three passes more than the periodic interval
apart. -/
def periodicTicks : List TickInput :=
  [TickInput.quiet 1500 0, TickInput.quiet 2001 0, TickInput.quiet 3100 0,
   TickInput.quiet 64000 0, TickInput.quiet 125000 0, TickInput.quiet 186000 0]

/-- A state in which 20 degrees were published last and the status is
unchanged, with the reading `t`. -/
def State.reading (t : ℚ) : State :=
  { State.init with
    current_pc_status := 1, last_read_status := 1, last_published_status := 1,
    current_temp := t, last_published_temp := 20 }

/-- Input bit flipping between 0 and 1, the status being accepted at 400 ms
and again at 900 ms (window 300 ms). -/
def flipTicks : List TickInput :=
  [TickInput.quiet 50 1, TickInput.quiet 400 1, TickInput.quiet 500 0,
   TickInput.quiet 600 0, TickInput.quiet 900 0]

/-- Connection attempts that all fail, the third one being checked 120100 ms
after a reconnect that began at 100 ms. -/
def lateAttempts : List Attempt :=
  [{ connect_ok := false, millis_after := 5200 },
   { connect_ok := false, millis_after := 60000 },
   { connect_ok := false, millis_after := 120200 }]

/-! ## Frame lemmas -/

theorem Subscription_Callback_state (cfg : Config) (st : State) (topic : String)
    (payload : Nat → Nat) (length : Nat) :
    (Subscription_Callback cfg st topic payload length).1 = st := by
  unfold Subscription_Callback
  dsimp only
  split_ifs <;> rfl

theorem client_loop_state (cfg : Config) (msgs : List Message) (st : State) :
    (client_loop cfg msgs st).1 = st := by
  induction msgs generalizing st with
  | nil => rfl
  | cons m rest ih => simp [client_loop, ih, Subscription_Callback_state]

theorem loop_publish_debounce_fields (cfg : Config) (now_ms : Int) (st : State) :
    (loop_publish cfg now_ms st).1.current_pc_status = st.current_pc_status ∧
    (loop_publish cfg now_ms st).1.last_read_status = st.last_read_status ∧
    (loop_publish cfg now_ms st).1.last_status_unstable_ms = st.last_status_unstable_ms := by
  simp only [loop_publish, Publish_PcStatus, Publish_Temperature, Publish_Connection]
  split_ifs <;> simp

theorem loop_publish_last_status (cfg : Config) (now_ms : Int) (st : State) :
    (loop_publish cfg now_ms st).1.last_published_status = st.last_published_status ∨
    (loop_publish cfg now_ms st).1.last_published_status = st.current_pc_status := by
  simp only [loop_publish, Publish_PcStatus, Publish_Temperature, Publish_Connection]
  split_ifs <;> simp

theorem loop_temperature_fields (cfg : Config) (inp : TickInput) (st : State) :
    (loop_temperature cfg inp st).current_pc_status = st.current_pc_status ∧
    (loop_temperature cfg inp st).last_read_status = st.last_read_status ∧
    (loop_temperature cfg inp st).last_status_unstable_ms = st.last_status_unstable_ms ∧
    (loop_temperature cfg inp st).last_published_status = st.last_published_status ∧
    (loop_temperature cfg inp st).last_published_ms = st.last_published_ms ∧
    (loop_temperature cfg inp st).is_syncing = st.is_syncing := by
  unfold loop_temperature
  split_ifs <;> simp

theorem loop_debounce_spec (cfg : Config) (tmp : Nat) (now_ms : Int) (st : State) :
    (loop_debounce cfg tmp now_ms st).last_read_status = tmp ∧
    (loop_debounce cfg tmp now_ms st).last_status_unstable_ms =
      (if tmp ≠ st.last_read_status then now_ms else st.last_status_unstable_ms) ∧
    (loop_debounce cfg tmp now_ms st).current_pc_status =
      (if now_ms - (loop_debounce cfg tmp now_ms st).last_status_unstable_ms
            > cfg.DEBOUNCE_STATUS_MS ∧ st.current_pc_status ≠ tmp
        then tmp else st.current_pc_status) ∧
    (loop_debounce cfg tmp now_ms st).last_published_status = st.last_published_status ∧
    (loop_debounce cfg tmp now_ms st).last_published_ms = st.last_published_ms ∧
    (loop_debounce cfg tmp now_ms st).is_syncing = st.is_syncing := by
  unfold loop_debounce
  dsimp only
  split_ifs <;> simp_all
  omega

/-- What the part of a pass before the publish block does to the debounce
variables.  The value `u` is the clock the debounce step compares against
before it looks at the sample: `last_status_unstable_ms`, or the reading of
line 91 when the pass reconnected. -/
theorem loop_head_debounce (cfg : Config) (inp : TickInput) (st st1 : State)
    (tr : List Effect) (h : loop_head cfg inp st = some (st1, tr)) :
    ∃ u : Int,
      (match inp.reconnect with
        | none => u = st.last_status_unstable_ms
        | some r => u = r.ms_reconnected) ∧
      st1.last_read_status = tmp_status cfg inp.raw_status ∧
      st1.last_status_unstable_ms =
        (if tmp_status cfg inp.raw_status ≠ st.last_read_status then inp.now_ms else u) ∧
      st1.current_pc_status =
        (if inp.now_ms - st1.last_status_unstable_ms > cfg.DEBOUNCE_STATUS_MS ∧
            st.current_pc_status ≠ tmp_status cfg inp.raw_status
          then tmp_status cfg inp.raw_status else st.current_pc_status) ∧
      st1.last_published_status = st.last_published_status := by
  unfold loop_head loop_connection at h
  cases hr : inp.reconnect with
  | none =>
    simp only [hr, Option.some.injEq, Prod.mk.injEq] at h
    obtain ⟨h1, -⟩ := h
    subst h1
    refine ⟨st.last_status_unstable_ms, rfl, ?_⟩
    have hd := loop_debounce_spec cfg (tmp_status cfg inp.raw_status) inp.now_ms
      (loop_temperature cfg inp (client_loop cfg inp.inbox st).1)
    have ht := loop_temperature_fields cfg inp (client_loop cfg inp.inbox st).1
    rw [client_loop_state] at ht hd
    obtain ⟨d1, d2, d3, d4, -⟩ := hd
    obtain ⟨t1, t2, t3, t4, -⟩ := ht
    rw [client_loop_state]
    refine ⟨d1, ?_, ?_, ?_⟩
    · rw [d2, t2, t3]
    · rw [d3, t1]
    · rw [d4, t4]
  | some r =>
    simp only [hr] at h
    cases hm : Mqtt_Reconnect cfg r.millis_start r.attempts with
    | restarted t => simp [hm] at h
    | retrying t => simp [hm] at h
    | connected t =>
      simp only [hm, Option.some.injEq, Prod.mk.injEq] at h
      obtain ⟨h1, -⟩ := h
      subst h1
      refine ⟨r.ms_reconnected, rfl, ?_⟩
      have hd := loop_debounce_spec cfg (tmp_status cfg inp.raw_status) inp.now_ms
        (loop_temperature cfg inp (client_loop cfg inp.inbox
          { st with connect_cnt := (st.connect_cnt + 1) % 65536,
                    last_published_ms := r.ms_reconnected,
                    last_status_unstable_ms := r.ms_reconnected }).1)
      have ht := loop_temperature_fields cfg inp (client_loop cfg inp.inbox
          { st with connect_cnt := (st.connect_cnt + 1) % 65536,
                    last_published_ms := r.ms_reconnected,
                    last_status_unstable_ms := r.ms_reconnected }).1
      rw [client_loop_state] at ht hd
      obtain ⟨d1, d2, d3, d4, -⟩ := hd
      obtain ⟨t1, t2, t3, t4, -⟩ := ht
      rw [client_loop_state]
      refine ⟨d1, ?_, ?_, ?_⟩
      · rw [d2, t2, t3]
      · rw [d3, t1]
      · rw [d4, t4]

/-- What a whole pass does to the debounce variables (see
`loop_head_debounce`), and to the last published status. -/
theorem loop_debounce_fields (cfg : Config) (inp : TickInput) (st st1 : State)
    (tr : List Effect) (h : loop cfg inp st = some (st1, tr)) :
    ∃ u : Int,
      (match inp.reconnect with
        | none => u = st.last_status_unstable_ms
        | some r => u = r.ms_reconnected) ∧
      st1.last_read_status = tmp_status cfg inp.raw_status ∧
      st1.last_status_unstable_ms =
        (if tmp_status cfg inp.raw_status ≠ st.last_read_status then inp.now_ms else u) ∧
      st1.current_pc_status =
        (if inp.now_ms - st1.last_status_unstable_ms > cfg.DEBOUNCE_STATUS_MS ∧
            st.current_pc_status ≠ tmp_status cfg inp.raw_status
          then tmp_status cfg inp.raw_status else st.current_pc_status) ∧
      (st1.last_published_status = st.last_published_status ∨
        st1.last_published_status = st1.current_pc_status) := by
  unfold loop at h
  cases hh : loop_head cfg inp st with
  | none => simp [hh] at h
  | some r1 =>
    obtain ⟨s1, t1⟩ := r1
    simp only [hh, Option.some.injEq, Prod.mk.injEq] at h
    obtain ⟨h1, -⟩ := h
    subst h1
    obtain ⟨u, hu, a1, a2, a3, a4⟩ := loop_head_debounce cfg inp st s1 t1 hh
    obtain ⟨p1, p2, p3⟩ := loop_publish_debounce_fields cfg inp.now_ms s1
    refine ⟨u, hu, ?_, ?_, ?_, ?_⟩
    · rw [p2, a1]
    · rw [p3, a2]
    · rw [p1, p3, a3]
    · rcases loop_publish_last_status cfg inp.now_ms s1 with q | q
      · left; rw [q, a4]
      · right; rw [q, p1]

/-! ## Executions: helper lemmas -/

theorem runLoop_cons (cfg : Config) (st st2 : State) (x : TickInput) (rest : List TickInput)
    (h : runLoop cfg st (x :: rest) = some st2) :
    ∃ st1 tr, loop cfg x st = some (st1, tr) ∧ runLoop cfg st1 rest = some st2 := by
  unfold runLoop at h
  cases hl : loop cfg x st with
  | none => simp [hl] at h
  | some r => exact ⟨r.1, r.2, rfl, by simpa [hl] using h⟩

theorem clockOk_bound (prev u : Int) (x : TickInput) (st : State)
    (hu : match x.reconnect with
      | none => u = st.last_status_unstable_ms
      | some r => u = r.ms_reconnected)
    (hc : x.clockOk prev) :
    prev ≤ x.now_ms ∧ (u = st.last_status_unstable_ms ∨ prev ≤ u) := by
  unfold TickInput.clockOk at hc
  cases hr : x.reconnect with
  | none =>
    simp only [hr] at hc hu
    exact ⟨hc, Or.inl hu⟩
  | some r =>
    simp only [hr] at hc hu
    exact ⟨le_trans hc.1 hc.2, Or.inr (hu ▸ hc.1)⟩

theorem ShortRuns_drop (cfg : Config) (s : Nat) (front rest : List TickInput)
    (h : ShortRuns cfg s (front ++ rest)) : ShortRuns cfg s rest := by
  intro pre seg post a b hsplit hseg ha hb
  exact h (front ++ pre) seg post a b (by simp [hsplit]) hseg ha hb

/-- Invariant behind C5: `cur` is the run of samples different from `s` that
is in progress, `prev` the time of the previous pass. -/
theorem no_false_transition_aux (cfg : Config) (s : Nat) (inputs : List TickInput) :
    ∀ (cur : List TickInput) (st : State) (prev : Int),
      st.current_pc_status = s →
      (∀ x ∈ cur, tmp_status cfg x.raw_status ≠ s) →
      (cur = [] → st.last_read_status = s) →
      (∀ a, cur.head? = some a →
        st.last_read_status ≠ s ∧ a.now_ms ≤ st.last_status_unstable_ms ∧ a.now_ms ≤ prev) →
      Timed prev inputs →
      ShortRuns cfg s (cur ++ inputs) →
      ∀ pre st2, pre <+: inputs → runLoop cfg st pre = some st2 →
        st2.current_pc_status = s ∧
        (st.last_published_status = s → st2.last_published_status = s) := by
  induction inputs with
  | nil =>
    intro cur st prev hcur _ _ _ _ _ pre st2 hpre hrun
    rw [List.prefix_nil] at hpre
    subst hpre
    simp only [runLoop, Option.some.injEq] at hrun
    subst hrun
    exact ⟨hcur, id⟩
  | cons x rest ih =>
    intro cur st prev hcur hne hnil hhead htimed hshort pre st2 hpre hrun
    rcases List.prefix_cons_iff.mp hpre with hp | ⟨t, hp, hpt⟩
    · subst hp
      simp only [runLoop, Option.some.injEq] at hrun
      subst hrun
      exact ⟨hcur, id⟩
    · subst hp
      obtain ⟨st1, tr, hloop, hrest⟩ := runLoop_cons cfg st st2 x t hrun
      obtain ⟨u, hu, f1, f2, f3, f4⟩ := loop_debounce_fields cfg x st st1 tr hloop
      obtain ⟨hck, htimed2⟩ := htimed
      obtain ⟨hnow, hub⟩ := clockOk_bound prev u x st hu hck
      by_cases hs : tmp_status cfg x.raw_status = s
      · -- the sample agrees with the settled status
        have c1 : st1.current_pc_status = s := by
          rw [f3, hs, hcur]; simp
        have l1 : st.last_published_status = s → st1.last_published_status = s := by
          intro hl
          rcases f4 with q | q
          · rw [q, hl]
          · rw [q, c1]
        have key := ih [] st1 x.now_ms c1 (by simp) (fun _ => by rw [f1, hs]) (by simp)
          htimed2 (ShortRuns_drop cfg s (cur ++ [x]) rest (by simpa using hshort)) t st2 hpt hrest
        exact ⟨key.1, fun hl => key.2 (l1 hl)⟩
      · -- the sample differs: the run in progress is extended by this pass
        have hall : ∀ y ∈ cur ++ [x], tmp_status cfg y.raw_status ≠ s := by
          intro y hy
          rcases List.mem_append.mp hy with hy | hy
          · exact hne y hy
          · rw [List.mem_singleton.mp hy]; exact hs
        have hwin : ¬ (x.now_ms - st1.last_status_unstable_ms > cfg.DEBOUNCE_STATUS_MS) := by
          rw [f2]
          by_cases hl : tmp_status cfg x.raw_status = st.last_read_status
          · have hcne : cur ≠ [] := fun hc => hs (hl.trans (hnil hc))
            obtain ⟨a, as, hca⟩ := List.exists_cons_of_ne_nil hcne
            obtain ⟨-, ha1, ha2⟩ := hhead a (by rw [hca]; rfl)
            have hd := hshort [] (cur ++ [x]) rest a x (by simp) hall
              (by rw [hca]; rfl) (List.getLast?_concat cur)
            simp only [ne_eq, hl, not_true_eq_false, if_false]
            rcases hub with hub | hub
            · rw [hub]; omega
            · omega
          · have hd := hshort cur [x] rest x x (by simp)
              (fun y hy => by rw [List.mem_singleton.mp hy]; exact hs) rfl rfl
            simp only [ne_eq, hl, not_false_eq_true, if_true]
            omega
        have c1 : st1.current_pc_status = s := by
          rw [f3, if_neg (fun hc => hwin hc.1), hcur]
        have l1 : st.last_published_status = s → st1.last_published_status = s := by
          intro hl
          rcases f4 with q | q
          · rw [q, hl]
          · rw [q, c1]
        have hhead2 : ∀ a, (cur ++ [x]).head? = some a →
            st1.last_read_status ≠ s ∧ a.now_ms ≤ st1.last_status_unstable_ms ∧
              a.now_ms ≤ x.now_ms := by
          intro a ha
          refine ⟨by rw [f1]; exact hs, ?_⟩
          cases hc : cur with
          | nil =>
            rw [hc] at ha
            simp only [List.nil_append, List.head?_cons, Option.some.injEq] at ha
            subst ha
            have hl : tmp_status cfg x.raw_status ≠ st.last_read_status := by
              rw [hnil hc]; exact hs
            rw [f2, if_pos hl]
            exact ⟨le_refl _, le_refl _⟩
          | cons c cs =>
            rw [hc] at ha
            simp only [List.cons_append, List.head?_cons, Option.some.injEq] at ha
            subst ha
            obtain ⟨-, ha1, ha2⟩ := hhead c (by rw [hc]; rfl)
            refine ⟨?_, le_trans ha2 hnow⟩
            rw [f2]
            split_ifs
            · exact le_trans ha2 hnow
            · rcases hub with hub | hub
              · rw [hub]; exact ha1
              · exact le_trans ha2 hub
        have key := ih (cur ++ [x]) st1 x.now_ms c1 hall (by simp) hhead2 htimed2
          (by simpa using hshort) t st2 hpt hrest
        exact ⟨key.1, fun hl => key.2 (l1 hl)⟩

theorem loop_connected (cfg : Config) (x : TickInput) (st : State)
    (h : x.reconnect = none) : ∃ st1 tr, loop cfg x st = some (st1, tr) := by
  simp [loop, loop_head, loop_connection, h]

theorem runLoop_append (cfg : Config) (l1 l2 : List TickInput) (st : State) :
    runLoop cfg st (l1 ++ l2) = (runLoop cfg st l1).bind (fun s => runLoop cfg s l2) := by
  induction l1 generalizing st with
  | nil => rfl
  | cons x rest ih =>
    simp only [List.cons_append, runLoop]
    cases loop cfg x st with
    | none => rfl
    | some r => exact ih r.1

theorem runLoop_connected (cfg : Config) (l : List TickInput) (st : State)
    (h : ∀ y ∈ l, y.reconnect = none) : ∃ st2, runLoop cfg st l = some st2 := by
  induction l generalizing st with
  | nil => exact ⟨st, rfl⟩
  | cons x rest ih =>
    obtain ⟨st1, tr, hl⟩ := loop_connected cfg x st (h x (List.mem_cons_self x rest))
    obtain ⟨st2, h2⟩ := ih st1 (fun y hy => h y (List.mem_cons_of_mem x hy))
    exact ⟨st2, by simp [runLoop, hl, h2]⟩

theorem runLoop_single (cfg : Config) (x : TickInput) (st st2 : State)
    (h : runLoop cfg st [x] = some st2) : ∃ tr, loop cfg x st = some (st2, tr) := by
  obtain ⟨st1, tr, hl, hr⟩ := runLoop_cons cfg st st2 x [] h
  simp only [runLoop, Option.some.injEq] at hr
  exact ⟨tr, hr ▸ hl⟩

/-- While the sample keeps the value read last and no pass reconnects, the
debounce timer is not restarted. -/
theorem runLoop_hold (cfg : Config) (v : Nat) (l : List TickInput) :
    ∀ (st st2 : State),
      (∀ y ∈ l, y.reconnect = none ∧ tmp_status cfg y.raw_status = v) →
      st.last_read_status = v → runLoop cfg st l = some st2 →
      st2.last_read_status = v ∧
        st2.last_status_unstable_ms = st.last_status_unstable_ms := by
  induction l with
  | nil =>
    intro st st2 _ hv h
    simp only [runLoop, Option.some.injEq] at h
    subst h
    exact ⟨hv, rfl⟩
  | cons x rest ih =>
    intro st st2 hall hv h
    obtain ⟨st1, tr, hl, hr⟩ := runLoop_cons cfg st st2 x rest h
    obtain ⟨hx1, hx2⟩ := hall x (List.mem_cons_self x rest)
    obtain ⟨u, hu, f1, f2, -, -⟩ := loop_debounce_fields cfg x st st1 tr hl
    simp only [hx1] at hu
    have e1 : st1.last_read_status = v := by rw [f1, hx2]
    have e2 : st1.last_status_unstable_ms = st.last_status_unstable_ms := by
      rw [f2, hx2, hv, hu]; simp
    obtain ⟨g1, g2⟩ := ih st1 st2 (fun y hy => hall y (List.mem_cons_of_mem x hy)) e1 hr
    exact ⟨g1, g2.trans e2⟩

/-- The sample read last before a run: the sample of the last pass, or
`last_read_status` of the start state when there was no pass. -/
theorem runLoop_last_read (cfg : Config) (a : List TickInput) (st st2 : State)
    (h : runLoop cfg st a = some st2) :
    st2.last_read_status =
      (match a.getLast? with
        | some y => tmp_status cfg y.raw_status
        | none => st.last_read_status) := by
  rcases List.eq_nil_or_concat a with ha | ⟨front, y, ha⟩
  · subst ha
    simp only [runLoop, Option.some.injEq] at h
    subst h
    rfl
  · subst ha
    rw [List.concat_eq_append] at h ⊢
    rw [List.getLast?_concat]
    rw [runLoop_append] at h
    cases hf : runLoop cfg st front with
    | none => simp [hf] at h
    | some s1 =>
      simp only [hf, Option.some_bind] at h
      obtain ⟨tr, hl⟩ := runLoop_single cfg y s1 st2 h
      obtain ⟨u, -, f1, -⟩ := loop_debounce_fields cfg y s1 st2 tr hl
      exact f1

/-- The status after a pass differs from the status before it exactly when the
sample differs from the status before and the debounce window is exceeded. -/
theorem debounce_step_change (tmp cur new : Nat) (elapsed window : Int)
    (h : new = if elapsed > window ∧ cur ≠ tmp then tmp else cur) :
    (new ≠ cur ↔ (tmp ≠ cur ∧ elapsed > window)) ∧ (new ≠ cur → new = tmp) := by
  by_cases hc : elapsed > window ∧ cur ≠ tmp
  · rw [if_pos hc] at h
    subst h
    exact ⟨⟨fun _ => ⟨fun e => hc.2 e.symm, hc.1⟩, fun _ e => hc.2 e.symm⟩, fun _ => rfl⟩
  · rw [if_neg hc] at h
    subst h
    exact ⟨⟨fun e => absurd rfl e, fun e => absurd ⟨e.2, fun q => e.1 q.symm⟩ hc⟩,
      fun e => absurd rfl e⟩

/-! ## Publish clock: helper lemmas -/

theorem loop_publish_gate (cfg : Config) (now_ms : Int) (st : State)
    (h : now_ms - st.last_published_ms ≤ cfg.PUB_MIN_MS) :
    loop_publish cfg now_ms st = (st, []) := by
  unfold loop_publish
  rw [if_neg (not_lt.mpr h)]

theorem loop_publish_clock (cfg : Config) (now_ms : Int) (st : State) :
    ((loop_publish cfg now_ms st).2 ≠ [] → now_ms - st.last_published_ms > cfg.PUB_MIN_MS) ∧
    ((loop_publish cfg now_ms st).1.last_published_ms = st.last_published_ms ∨
      (loop_publish cfg now_ms st).1.last_published_ms = now_ms) ∧
    ((loop_publish cfg now_ms st).2 ≠ [] →
      (∀ text, Effect.publish OutTopic.TOPIC_OUT_CONN text ∉ (loop_publish cfg now_ms st).2) →
      (loop_publish cfg now_ms st).1.last_published_ms = now_ms) ∧
    (st.is_syncing = 0 →
      (loop_publish cfg now_ms st).1.is_syncing = 0 ∧
      ∀ text, Effect.publish OutTopic.TOPIC_OUT_CONN text ∉ (loop_publish cfg now_ms st).2) := by
  simp only [loop_publish, Publish_PcStatus, Publish_Temperature, Publish_Connection]
  split_ifs <;> simp_all

theorem loop_head_clock (cfg : Config) (inp : TickInput) (st st1 : State)
    (tr : List Effect) (h : loop_head cfg inp st = some (st1, tr)) :
    st1.is_syncing = st.is_syncing ∧
    (match inp.reconnect with
      | none => st1.last_published_ms = st.last_published_ms
      | some r => st1.last_published_ms = r.ms_reconnected) := by
  unfold loop_head loop_connection at h
  cases hr : inp.reconnect with
  | none =>
    simp only [hr, Option.some.injEq, Prod.mk.injEq] at h
    obtain ⟨h1, -⟩ := h
    subst h1
    have hd := loop_debounce_spec cfg (tmp_status cfg inp.raw_status) inp.now_ms
      (loop_temperature cfg inp (client_loop cfg inp.inbox st).1)
    have ht := loop_temperature_fields cfg inp (client_loop cfg inp.inbox st).1
    rw [client_loop_state] at ht hd
    obtain ⟨-, -, -, -, d5, d6⟩ := hd
    obtain ⟨-, -, -, -, t5, t6⟩ := ht
    rw [client_loop_state]
    exact ⟨by rw [d6, t6], by rw [d5, t5]⟩
  | some r =>
    simp only [hr] at h
    cases hm : Mqtt_Reconnect cfg r.millis_start r.attempts with
    | restarted t => simp [hm] at h
    | retrying t => simp [hm] at h
    | connected t =>
      simp only [hm, Option.some.injEq, Prod.mk.injEq] at h
      obtain ⟨h1, -⟩ := h
      subst h1
      have hd := loop_debounce_spec cfg (tmp_status cfg inp.raw_status) inp.now_ms
        (loop_temperature cfg inp (client_loop cfg inp.inbox
          { st with connect_cnt := (st.connect_cnt + 1) % 65536,
                    last_published_ms := r.ms_reconnected,
                    last_status_unstable_ms := r.ms_reconnected }).1)
      have ht := loop_temperature_fields cfg inp (client_loop cfg inp.inbox
          { st with connect_cnt := (st.connect_cnt + 1) % 65536,
                    last_published_ms := r.ms_reconnected,
                    last_status_unstable_ms := r.ms_reconnected }).1
      rw [client_loop_state] at ht hd
      obtain ⟨-, -, -, -, d5, d6⟩ := hd
      obtain ⟨-, -, -, -, t5, t6⟩ := ht
      rw [client_loop_state]
      exact ⟨by rw [d6, t6], by rw [d5, t5]⟩

/-- After the part of a pass before the publish block, the publish clock lies
between the clock before the pass and `now_ms`. -/
theorem loop_head_clock_bounds (cfg : Config) (inp : TickInput) (st st1 : State)
    (tr : List Effect) (prev : Int) (h : loop_head cfg inp st = some (st1, tr))
    (hle : st.last_published_ms ≤ prev) (hc : inp.clockOk prev) :
    st.last_published_ms ≤ st1.last_published_ms ∧ st1.last_published_ms ≤ inp.now_ms := by
  obtain ⟨-, hm⟩ := loop_head_clock cfg inp st st1 tr h
  unfold TickInput.clockOk at hc
  cases hr : inp.reconnect with
  | none =>
    simp only [hr] at hc hm
    rw [hm]
    exact ⟨le_refl _, le_trans hle hc⟩
  | some r =>
    simp only [hr] at hc hm
    rw [hm]
    exact ⟨le_trans hle hc.1, hc.2⟩

/-! ## The ladder of the publish block: helper lemmas -/

/-- What `loop_publish` does, branch by branch. -/
theorem loop_publish_by_branch (cfg : Config) (now_ms : Int) (st : State) :
    loop_publish cfg now_ms st =
      match publishBranch cfg now_ms st with
      | Branch.idle => (st, [])
      | Branch.status =>
        ({ st with last_published_status := st.current_pc_status,
                   last_published_ms := now_ms },
         [Effect.publish OutTopic.TOPIC_OUT_PC_STATUS (toString st.current_pc_status)])
      | Branch.temperature =>
        ({ st with last_published_temp := st.current_temp, last_published_ms := now_ms },
         [Effect.publish OutTopic.TOPIC_OUT_TEMP (toString (temp_i16 st.current_temp))])
      | Branch.sync =>
        ({ st with sync_cnt := (st.sync_cnt + 1) % 65536, is_syncing := 0 },
         [Effect.publish OutTopic.TOPIC_OUT_CONN
            ("Synced(" ++ toString ((st.sync_cnt + 1) % 65536) ++ ")")])
      | Branch.periodic =>
        if st.data_to_publish = 1 then
          ({ st with last_published_temp := st.current_temp, data_to_publish := 2,
                     last_published_ms := now_ms },
           [Effect.publish OutTopic.TOPIC_OUT_TEMP (toString (temp_i16 st.current_temp))])
        else
          ({ st with last_published_status := st.current_pc_status, data_to_publish := 1,
                     last_published_ms := now_ms },
           [Effect.publish OutTopic.TOPIC_OUT_PC_STATUS (toString st.current_pc_status)]) := by
  simp only [loop_publish, publishBranch, Publish_PcStatus, Publish_Temperature,
    Publish_Connection, PUB_DATA_MAX, PUB_DATA_PC_STATUS, PUB_DATA_TEMP]
  split_ifs <;> first | rfl | (simp_all; done) | (simp_all; omega)

/-- The part of a pass before the publish block leaves the rotation cursor, the
temperature published last and the sync counter as they are. -/
theorem loop_head_frame (cfg : Config) (inp : TickInput) (st st1 : State)
    (tr : List Effect) (h : loop_head cfg inp st = some (st1, tr)) :
    st1.data_to_publish = st.data_to_publish ∧
    st1.last_published_temp = st.last_published_temp ∧
    st1.sync_cnt = st.sync_cnt := by
  have ht : ∀ s : State,
      (loop_temperature cfg inp s).data_to_publish = s.data_to_publish ∧
      (loop_temperature cfg inp s).last_published_temp = s.last_published_temp ∧
      (loop_temperature cfg inp s).sync_cnt = s.sync_cnt := by
    intro s
    unfold loop_temperature
    split_ifs <;> simp
  have hd : ∀ (tmp : Nat) (s : State),
      (loop_debounce cfg tmp inp.now_ms s).data_to_publish = s.data_to_publish ∧
      (loop_debounce cfg tmp inp.now_ms s).last_published_temp = s.last_published_temp ∧
      (loop_debounce cfg tmp inp.now_ms s).sync_cnt = s.sync_cnt := by
    intro tmp s
    unfold loop_debounce
    dsimp only
    split_ifs <;> simp
  unfold loop_head loop_connection at h
  cases hr : inp.reconnect with
  | none =>
    simp only [hr, Option.some.injEq, Prod.mk.injEq] at h
    obtain ⟨h1, -⟩ := h
    subst h1
    simp only [client_loop_state]
    obtain ⟨d1, d2, d3⟩ := hd (tmp_status cfg inp.raw_status) (loop_temperature cfg inp st)
    obtain ⟨t1, t2, t3⟩ := ht st
    exact ⟨d1.trans t1, d2.trans t2, d3.trans t3⟩
  | some r =>
    simp only [hr] at h
    cases hm : Mqtt_Reconnect cfg r.millis_start r.attempts with
    | restarted t => simp [hm] at h
    | retrying t => simp [hm] at h
    | connected t =>
      simp only [hm, Option.some.injEq, Prod.mk.injEq] at h
      obtain ⟨h1, -⟩ := h
      subst h1
      simp only [client_loop_state]
      obtain ⟨d1, d2, d3⟩ := hd (tmp_status cfg inp.raw_status)
        (loop_temperature cfg inp
          { st with connect_cnt := (st.connect_cnt + 1) % 65536,
                    last_published_ms := r.ms_reconnected,
                    last_status_unstable_ms := r.ms_reconnected })
      obtain ⟨t1, t2, t3⟩ := ht
          { st with connect_cnt := (st.connect_cnt + 1) % 65536,
                    last_published_ms := r.ms_reconnected,
                    last_status_unstable_ms := r.ms_reconnected }
      exact ⟨d1.trans t1, d2.trans t2, d3.trans t3⟩

theorem blockRuns_cons (cfg : Config) (st : State) (inp : TickInput) (rest : List TickInput) :
    (loop_head cfg inp st = none ∧ blockRuns cfg st (inp :: rest) = []) ∨
    ∃ st1 tr, loop_head cfg inp st = some (st1, tr) ∧
      blockRuns cfg st (inp :: rest) =
        (inp.now_ms, st1, (loop_publish cfg inp.now_ms st1).2) ::
          blockRuns cfg (loop_publish cfg inp.now_ms st1).1 rest := by
  cases hh : loop_head cfg inp st with
  | none => left; exact ⟨rfl, by simp [blockRuns, hh]⟩
  | some r => right; exact ⟨r.1, r.2, rfl, by simp [blockRuns, hh]⟩

/-- The category of the `k`-th periodic publish (counted from 0) of an
execution that starts with the cursor at `c`: the cursor is on the temperature
when it is 1, and on the status when it is 0 or has reached `PUB_DATA_MAX`. -/
theorem periodicLog_alternates (cfg : Config) (ticks : List TickInput) :
    ∀ (st : State) (k : Nat) (tr : List Effect),
      (periodicLog cfg st ticks)[k]? = some tr →
      ∃ payload, tr =
        [Effect.publish
          (if (k + (if st.data_to_publish = 1 then 1 else 0)) % 2 = 0
            then OutTopic.TOPIC_OUT_PC_STATUS else OutTopic.TOPIC_OUT_TEMP) payload] := by
  induction ticks with
  | nil => intro st k tr h; simp [periodicLog, blockRuns] at h
  | cons inp rest ih =>
    intro st k tr h
    rcases blockRuns_cons cfg st inp rest with ⟨-, he⟩ | ⟨st1, t1, hh, he⟩
    · simp [periodicLog, he] at h
    · obtain ⟨c1, -, -⟩ := loop_head_frame cfg inp st st1 t1 hh
      have hb := loop_publish_by_branch cfg inp.now_ms st1
      by_cases hp : publishBranch cfg inp.now_ms st1 = Branch.periodic
      · -- this pass takes the periodic branch
        have hlog : periodicLog cfg st (inp :: rest) =
            (loop_publish cfg inp.now_ms st1).2 ::
              periodicLog cfg (loop_publish cfg inp.now_ms st1).1 rest := by
          simp [periodicLog, he, hp]
        rw [hlog] at h
        rw [hp] at hb
        simp only at hb
        by_cases hc : st1.data_to_publish = 1
        · rw [if_pos hc] at hb
          cases k with
          | zero =>
            simp only [List.getElem?_cons_zero, Option.some.injEq] at h
            rw [hb] at h
            exact ⟨toString (temp_i16 st1.current_temp), by rw [← h, ← c1]; simp [hc]⟩
          | succ j =>
            simp only [List.getElem?_cons_succ] at h
            obtain ⟨p, hp2⟩ := ih _ j tr h
            refine ⟨p, ?_⟩
            rw [hp2, hb, ← c1]
            simp only [hc]
            have e : (j + 1 + 1) % 2 = j % 2 := by omega
            simp [e]
        · rw [if_neg hc] at hb
          cases k with
          | zero =>
            simp only [List.getElem?_cons_zero, Option.some.injEq] at h
            rw [hb] at h
            exact ⟨toString st1.current_pc_status, by rw [← h, ← c1]; simp [hc]⟩
          | succ j =>
            simp only [List.getElem?_cons_succ] at h
            obtain ⟨p, hp2⟩ := ih _ j tr h
            refine ⟨p, ?_⟩
            rw [hp2, hb, ← c1]
            simp [hc]
      · -- another branch: the cursor is not touched
        have hlog : periodicLog cfg st (inp :: rest) =
            periodicLog cfg (loop_publish cfg inp.now_ms st1).1 rest := by
          simp [periodicLog, he, hp]
        rw [hlog] at h
        obtain ⟨p, hp2⟩ := ih _ k tr h
        refine ⟨p, ?_⟩
        have hcur : (loop_publish cfg inp.now_ms st1).1.data_to_publish
            = st.data_to_publish := by
          rw [hb, ← c1]
          cases hbr : publishBranch cfg inp.now_ms st1 <;> simp_all
        rw [hp2, hcur]

theorem tmp_status_bit (cfg : Config) (raw : Nat) (h : raw = 0 ∨ raw = 1) :
    tmp_status cfg raw = 0 ∨ tmp_status cfg raw = 1 := by
  unfold tmp_status
  rcases h with h | h <;> subst h <;> cases cfg.IN_STATUS_INVERTED <;> simp

/-- Invariant behind C12: the debounced status is 0 or 1, or it still has its
initial value 255 and nothing else was published. -/
theorem status_payload_aux (cfg : Config) (ticks : List TickInput) :
    ∀ (st : State),
      (st.current_pc_status = 0 ∨ st.current_pc_status = 1 ∨
        (st.current_pc_status = 255 ∧ st.last_published_status = 255)) →
      (∀ inp ∈ ticks, inp.raw_status = 0 ∨ inp.raw_status = 1) →
      ∀ e ∈ blockRuns cfg st ticks, ∀ payload,
        Effect.publish OutTopic.TOPIC_OUT_PC_STATUS payload ∈ e.2.2 →
        (payload = "0" ∨ payload = "1") ∨
        (payload = "255" ∧ e.2.1.current_pc_status = 255 ∧
          publishBranch cfg e.1 e.2.1 = Branch.periodic) := by
  induction ticks with
  | nil => intro st _ _ e he; simp [blockRuns] at he
  | cons inp rest ih =>
    intro st hinv hraw e he payload hp
    rcases blockRuns_cons cfg st inp rest with ⟨-, hnil⟩ | ⟨st1, t1, hh, hcons⟩
    · rw [hnil] at he; simp at he
    · obtain ⟨u, -, -, -, a3, a4⟩ := loop_head_debounce cfg inp st st1 t1 hh
      have hbit := tmp_status_bit cfg inp.raw_status (hraw inp (List.mem_cons_self inp rest))
      have hinv1 : st1.current_pc_status = 0 ∨ st1.current_pc_status = 1 ∨
          (st1.current_pc_status = 255 ∧ st1.last_published_status = 255) := by
        rw [a3, a4]
        split_ifs
        · rcases hbit with e0 | e1
          · left; exact e0
          · right; left; exact e1
        · exact hinv
      have hb := loop_publish_by_branch cfg inp.now_ms st1
      rw [hcons] at he
      rcases List.mem_cons.mp he with he | he
      · subst he
        simp only at hp ⊢
        rw [hb] at hp
        cases hbr : publishBranch cfg inp.now_ms st1 with
        | idle => simp [hbr] at hp
        | temperature => simp [hbr] at hp
        | sync => simp [hbr] at hp
        | status =>
          simp only [hbr, List.mem_singleton, Effect.publish.injEq, true_and] at hp
          have hne : st1.current_pc_status ≠ st1.last_published_status := by
            unfold publishBranch at hbr
            split_ifs at hbr
            assumption
          rcases hinv1 with e0 | e1 | ⟨e2, e3⟩
          · left; left; rw [hp, e0]; rfl
          · left; right; rw [hp, e1]; rfl
          · exact absurd (e2.trans e3.symm) hne
        | periodic =>
          simp only [hbr] at hp
          split_ifs at hp
          · simp at hp
          · simp only [List.mem_singleton, Effect.publish.injEq, true_and] at hp
            rcases hinv1 with e0 | e1 | ⟨e2, -⟩
            · left; left; rw [hp, e0]; rfl
            · left; right; rw [hp, e1]; rfl
            · right; exact ⟨by rw [hp, e2]; rfl, e2, rfl⟩
      · have hinv2 : (loop_publish cfg inp.now_ms st1).1.current_pc_status = 0 ∨
            (loop_publish cfg inp.now_ms st1).1.current_pc_status = 1 ∨
            ((loop_publish cfg inp.now_ms st1).1.current_pc_status = 255 ∧
              (loop_publish cfg inp.now_ms st1).1.last_published_status = 255) := by
          obtain ⟨p1, -, -⟩ := loop_publish_debounce_fields cfg inp.now_ms st1
          rw [p1]
          rcases hinv1 with e0 | e1 | ⟨e2, e3⟩
          · left; exact e0
          · right; left; exact e1
          · right; right
            refine ⟨e2, ?_⟩
            rcases loop_publish_last_status cfg inp.now_ms st1 with q | q
            · rw [q, e3]
            · rw [q, e2]
        exact ih _ hinv2 (fun i hi => hraw i (List.mem_cons_of_mem inp hi)) e he payload hp

/-! ## Debounce rate: helper lemmas -/

theorem statusLog_cons (cfg : Config) (st : State) (inp : TickInput) (rest : List TickInput) :
    (loop cfg inp st = none ∧ statusLog cfg st (inp :: rest) = []) ∨
    ∃ st1 tr, loop cfg inp st = some (st1, tr) ∧
      statusLog cfg st (inp :: rest) =
        (inp.now_ms, st.current_pc_status, st1.current_pc_status) :: statusLog cfg st1 rest := by
  cases hl : loop cfg inp st with
  | none => left; exact ⟨rfl, by simp [statusLog, hl]⟩
  | some r => right; exact ⟨r.1, r.2, rfl, by simp [statusLog, hl]⟩

/-- One pass, seen from a time `T` not later than the previous pass: if the
sample read last equals the debounced status or the debounce timer was
restarted at `T` or later, then a change of the status in this pass comes more
than the window after `T`, and the same holds again after the pass. -/
theorem debounce_rate_step (cfg : Config) (inp : TickInput) (st st1 : State)
    (tr : List Effect) (prev T : Int) (h : loop cfg inp st = some (st1, tr))
    (hT : T ≤ prev) (hc : inp.clockOk prev)
    (hinv : st.last_read_status = st.current_pc_status ∨ T ≤ st.last_status_unstable_ms) :
    T ≤ inp.now_ms ∧
    (st1.current_pc_status ≠ st.current_pc_status →
      inp.now_ms - T > cfg.DEBOUNCE_STATUS_MS ∧
      st1.last_read_status = st1.current_pc_status) ∧
    (st1.last_read_status = st1.current_pc_status ∨ T ≤ st1.last_status_unstable_ms) := by
  obtain ⟨u, hu, f1, f2, f3, -⟩ := loop_debounce_fields cfg inp st st1 tr h
  obtain ⟨hnow, hub⟩ := clockOk_bound prev u inp st hu hc
  have hTnow : T ≤ inp.now_ms := le_trans hT hnow
  -- when the sample differs from the status, the timer was restarted at `T` or later
  have hkey : tmp_status cfg inp.raw_status ≠ st.current_pc_status →
      T ≤ st1.last_status_unstable_ms := by
    intro hne
    rw [f2]
    by_cases hl : tmp_status cfg inp.raw_status = st.last_read_status
    · rw [if_neg (not_not.mpr hl)]
      have h2 : T ≤ st.last_status_unstable_ms := by
        rcases hinv with e | e
        · exact absurd (hl.trans e) hne
        · exact e
      rcases hub with e | e
      · rw [e]; exact h2
      · exact le_trans hT e
    · rw [if_pos hl]; exact hTnow
  by_cases hch : inp.now_ms - st1.last_status_unstable_ms > cfg.DEBOUNCE_STATUS_MS ∧
      st.current_pc_status ≠ tmp_status cfg inp.raw_status
  · rw [if_pos hch] at f3
    have hle := hkey (fun e => hch.2 e.symm)
    refine ⟨hTnow, fun _ => ⟨by omega, by rw [f1, f3]⟩, Or.inl (by rw [f1, f3])⟩
  · rw [if_neg hch] at f3
    refine ⟨hTnow, fun hne => absurd f3 hne, ?_⟩
    by_cases he : tmp_status cfg inp.raw_status = st.current_pc_status
    · left; rw [f1, f3, he]
    · right; exact hkey he

/-- Every change of the status after a time `T` as in `debounce_rate_step`
comes more than the window after `T`. -/
theorem statusLog_after (cfg : Config) (ticks : List TickInput) :
    ∀ (st : State) (prev T : Int), T ≤ prev →
      (st.last_read_status = st.current_pc_status ∨ T ≤ st.last_status_unstable_ms) →
      Timed prev ticks →
      ∀ q ∈ statusLog cfg st ticks, q.2.1 ≠ q.2.2 → q.1 - T > cfg.DEBOUNCE_STATUS_MS := by
  induction ticks with
  | nil => intro st prev T _ _ _ q hq; simp [statusLog] at hq
  | cons inp rest ih =>
    intro st prev T hT hinv htimed q hq hne
    obtain ⟨hck, htimed2⟩ := htimed
    rcases statusLog_cons cfg st inp rest with ⟨-, he⟩ | ⟨st1, tr, hl, he⟩
    · rw [he] at hq; simp at hq
    · rw [he] at hq
      obtain ⟨s1, s2, s3⟩ := debounce_rate_step cfg inp st st1 tr prev T hl hT hck hinv
      rcases List.mem_cons.mp hq with hq | hq
      · subst hq
        exact (s2 (fun e => hne e.symm)).1
      · exact ih st1 inp.now_ms T s1 s3 htimed2 q hq hne

theorem statusLog_pairwise (cfg : Config) (ticks : List TickInput) :
    ∀ (st : State) (prev : Int), Timed prev ticks →
      (statusLog cfg st ticks).Pairwise (fun p q =>
        p.2.1 ≠ p.2.2 → q.2.1 ≠ q.2.2 → q.1 - p.1 > cfg.DEBOUNCE_STATUS_MS) := by
  induction ticks with
  | nil => intro st prev _; simp [statusLog]
  | cons inp rest ih =>
    intro st prev htimed
    obtain ⟨hck, htimed2⟩ := htimed
    rcases statusLog_cons cfg st inp rest with ⟨-, he⟩ | ⟨st1, tr, hl, he⟩
    · rw [he]; exact List.Pairwise.nil
    · rw [he]
      refine List.Pairwise.cons ?_ (ih st1 inp.now_ms htimed2)
      intro q hq hne hqne
      -- seen from a time before everything, the pass satisfies `debounce_rate_step`
      obtain ⟨-, s2, -⟩ := debounce_rate_step cfg inp st st1 tr prev
        (min prev st.last_status_unstable_ms) hl (min_le_left _ _) hck
        (Or.inr (min_le_right _ _))
      have hread := (s2 (fun e => hne e.symm)).2
      exact statusLog_after cfg rest st1 inp.now_ms inp.now_ms (le_refl _) (Or.inl hread)
        htimed2 q hq hqne

/-! ## Reconnect: helper lemmas -/

/-- Attempts that fail before the timeout only add their delays. -/
theorem reconnect_delays (cfg : Config) (millis_start : Nat) (pre rest : List Attempt)
    (hpre : ∀ b ∈ pre, b.connect_ok = false ∧ elapsed32 millis_start b ≤ 2 * 60000) :
    Mqtt_Reconnect cfg millis_start (pre ++ rest) =
      (Mqtt_Reconnect cfg millis_start rest).after
        (List.replicate pre.length (Effect.delay 5000)) := by
  induction pre with
  | nil =>
    simp only [List.nil_append, List.length_nil, List.replicate_zero]
    cases hm : Mqtt_Reconnect cfg millis_start rest <;> simp [Reconnect.after]
  | cons b bs ih =>
    obtain ⟨h1, h2⟩ := hpre b (List.mem_cons_self b bs)
    have h3 : ¬ ((b.millis_after % 4294967296 + 4294967296 - millis_start % 4294967296)
        % 4294967296 > 2 * 60000) := not_lt.mpr h2
    simp only [List.cons_append, Mqtt_Reconnect, h1, Bool.false_eq_true, if_false, h3,
      List.append_eq]
    rw [ih (fun c hc => hpre c (List.mem_cons_of_mem b hc))]
    cases hm : Mqtt_Reconnect cfg millis_start rest <;>
      simp [Reconnect.after, List.replicate_succ]

/-- Every sequence of attempts either fails before the timeout throughout, or
has a first attempt that succeeds or is followed by a timeout. -/
theorem attempts_split (millis_start : Nat) (attempts : List Attempt) :
    (∀ b ∈ attempts, b.connect_ok = false ∧ elapsed32 millis_start b ≤ 2 * 60000) ∨
    ∃ pre a post, attempts = pre ++ a :: post ∧
      (∀ b ∈ pre, b.connect_ok = false ∧ elapsed32 millis_start b ≤ 2 * 60000) ∧
      (a.connect_ok = true ∨
        (a.connect_ok = false ∧ elapsed32 millis_start a > 2 * 60000)) := by
  induction attempts with
  | nil => left; intro b hb; simp at hb
  | cons a rest ih =>
    by_cases hok : a.connect_ok = true
    · right; exact ⟨[], a, rest, rfl, by simp, Or.inl hok⟩
    · have hf : a.connect_ok = false := by simpa using hok
      by_cases ht : elapsed32 millis_start a > 2 * 60000
      · right; exact ⟨[], a, rest, rfl, by simp, Or.inr ⟨hf, ht⟩⟩
      · rcases ih with hall | ⟨pre, c, post, he, hpre, hc⟩
        · left
          intro b hb
          rcases List.mem_cons.mp hb with hb | hb
          · rw [hb]; exact ⟨hf, not_lt.mp ht⟩
          · exact hall b hb
        · right
          refine ⟨a :: pre, c, post, by rw [he]; rfl, ?_, hc⟩
          intro b hb
          rcases List.mem_cons.mp hb with hb | hb
          · rw [hb]; exact ⟨hf, not_lt.mp ht⟩
          · exact hpre b hb

theorem reconnect_success (cfg : Config) (millis_start : Nat) (pre post : List Attempt)
    (a : Attempt)
    (hpre : ∀ b ∈ pre, b.connect_ok = false ∧ elapsed32 millis_start b ≤ 2 * 60000)
    (ha : a.connect_ok = true) :
    Mqtt_Reconnect cfg millis_start (pre ++ a :: post) =
      Reconnect.connected
        (List.replicate pre.length (Effect.delay 5000) ++
          [Effect.publish OutTopic.TOPIC_OUT_CONN (cfg.MQTT_CLIENT_ID.take 29),
           Effect.subscribe cfg.TOPIC_IN_PC_STATE, Effect.subscribe cfg.TOPIC_IN_PC_RESET]) := by
  rw [reconnect_delays cfg millis_start pre (a :: post) hpre]
  simp [Mqtt_Reconnect, ha, Reconnect.after, Publish_Connection]

theorem reconnect_timeout (cfg : Config) (millis_start : Nat) (pre post : List Attempt)
    (a : Attempt)
    (hpre : ∀ b ∈ pre, b.connect_ok = false ∧ elapsed32 millis_start b ≤ 2 * 60000)
    (ha : a.connect_ok = false) (ht : elapsed32 millis_start a > 2 * 60000) :
    Mqtt_Reconnect cfg millis_start (pre ++ a :: post) =
      Reconnect.restarted
        (List.replicate (pre.length + 1) (Effect.delay 5000) ++ [Effect.restart]) := by
  rw [reconnect_delays cfg millis_start pre (a :: post) hpre]
  have h3 : (a.millis_after % 4294967296 + 4294967296 - millis_start % 4294967296)
      % 4294967296 > 2 * 60000 := ht
  simp only [Mqtt_Reconnect, ha, Bool.false_eq_true, if_false, h3, if_true, Reconnect.after]
  rw [List.replicate_succ', List.append_assoc]
  rfl

theorem reconnect_retrying (cfg : Config) (millis_start : Nat) (attempts : List Attempt)
    (hall : ∀ b ∈ attempts, b.connect_ok = false ∧ elapsed32 millis_start b ≤ 2 * 60000) :
    Mqtt_Reconnect cfg millis_start attempts =
      Reconnect.retrying (List.replicate attempts.length (Effect.delay 5000)) := by
  have h := reconnect_delays cfg millis_start attempts [] hall
  simpa [Mqtt_Reconnect, Reconnect.after] using h

/-- The three ways in which a call of `Mqtt_Reconnect` ends, with the effects
of each. -/
theorem reconnect_cases (cfg : Config) (millis_start : Nat) (attempts : List Attempt) :
    ((∀ b ∈ attempts, b.connect_ok = false ∧ elapsed32 millis_start b ≤ 2 * 60000) ∧
      Mqtt_Reconnect cfg millis_start attempts =
        Reconnect.retrying (List.replicate attempts.length (Effect.delay 5000))) ∨
    (∃ pre a post, attempts = pre ++ a :: post ∧
      (∀ b ∈ pre, b.connect_ok = false ∧ elapsed32 millis_start b ≤ 2 * 60000) ∧
      a.connect_ok = true ∧
      Mqtt_Reconnect cfg millis_start attempts =
        Reconnect.connected
          (List.replicate pre.length (Effect.delay 5000) ++
            [Effect.publish OutTopic.TOPIC_OUT_CONN (cfg.MQTT_CLIENT_ID.take 29),
             Effect.subscribe cfg.TOPIC_IN_PC_STATE,
             Effect.subscribe cfg.TOPIC_IN_PC_RESET])) ∨
    (∃ pre a post, attempts = pre ++ a :: post ∧
      (∀ b ∈ pre, b.connect_ok = false ∧ elapsed32 millis_start b ≤ 2 * 60000) ∧
      a.connect_ok = false ∧ elapsed32 millis_start a > 2 * 60000 ∧
      Mqtt_Reconnect cfg millis_start attempts =
        Reconnect.restarted
          (List.replicate (pre.length + 1) (Effect.delay 5000) ++ [Effect.restart])) := by
  rcases attempts_split millis_start attempts with hall | ⟨pre, a, post, he, hpre, hc⟩
  · left; exact ⟨hall, reconnect_retrying cfg millis_start attempts hall⟩
  · rcases hc with hok | ⟨hf, ht⟩
    · right; left
      exact ⟨pre, a, post, he, hpre, hok,
        by rw [he]; exact reconnect_success cfg millis_start pre post a hpre hok⟩
    · right; right
      exact ⟨pre, a, post, he, hpre, hf, ht,
        by rw [he]; exact reconnect_timeout cfg millis_start pre post a hpre hf ht⟩

/-! ## Publish clock along an execution: helper lemmas -/

/-- With the flag clear, a pass that publishes sets the publish clock to
`now_ms`. -/
theorem loop_publish_resets (cfg : Config) (now_ms : Int) (st : State)
    (hz : st.is_syncing = 0) (hne : (loop_publish cfg now_ms st).2 ≠ []) :
    (loop_publish cfg now_ms st).1.last_published_ms = now_ms := by
  obtain ⟨-, -, p3, p4⟩ := loop_publish_clock cfg now_ms st
  exact p3 hne (p4 hz).2

/-- Every publish of the block comes more than `PUB_MIN_MS` after the value the
publish clock had at the start of the execution. -/
theorem blockRuns_after_clock (cfg : Config) (ticks : List TickInput) :
    ∀ (st : State) (prev : Int), st.last_published_ms ≤ prev → Timed prev ticks →
      ∀ q ∈ blockRuns cfg st ticks, q.2.2 ≠ [] →
        q.1 - st.last_published_ms > cfg.PUB_MIN_MS := by
  induction ticks with
  | nil => intro st prev _ _ q hq; simp [blockRuns] at hq
  | cons inp rest ih =>
    intro st prev hle htimed q hq hne
    obtain ⟨hck, htimed2⟩ := htimed
    rcases blockRuns_cons cfg st inp rest with ⟨-, he⟩ | ⟨st1, tr, hh, he⟩
    · rw [he] at hq; simp at hq
    · rw [he] at hq
      have hb := loop_head_clock_bounds cfg inp st st1 tr prev hh hle hck
      obtain ⟨p1, p2, -, -⟩ := loop_publish_clock cfg inp.now_ms st1
      rcases List.mem_cons.mp hq with hq | hq
      · subst hq
        have := p1 hne
        simp only at this ⊢
        omega
      · have hle2 : (loop_publish cfg inp.now_ms st1).1.last_published_ms ≤ inp.now_ms := by
          rcases p2 with e | e
          · rw [e]; exact hb.2
          · rw [e]
        have := ih _ inp.now_ms hle2 htimed2 q hq hne
        rcases p2 with e | e
        · rw [e] at this; omega
        · rw [e] at this; omega

theorem blockRuns_pairwise (cfg : Config) (ticks : List TickInput) :
    ∀ (st : State) (prev : Int), st.is_syncing = 0 → st.last_published_ms ≤ prev →
      Timed prev ticks →
      (blockRuns cfg st ticks).Pairwise (fun p q =>
        p.2.2 ≠ [] → q.2.2 ≠ [] → q.1 - p.1 > cfg.PUB_MIN_MS) := by
  induction ticks with
  | nil => intro st prev _ _ _; simp [blockRuns]
  | cons inp rest ih =>
    intro st prev hz hle htimed
    obtain ⟨hck, htimed2⟩ := htimed
    rcases blockRuns_cons cfg st inp rest with ⟨-, he⟩ | ⟨st1, tr, hh, he⟩
    · rw [he]; exact List.Pairwise.nil
    · rw [he]
      have hb := loop_head_clock_bounds cfg inp st st1 tr prev hh hle hck
      obtain ⟨hs, -⟩ := loop_head_clock cfg inp st st1 tr hh
      have hz1 : st1.is_syncing = 0 := hs.trans hz
      obtain ⟨-, p2, -, p4⟩ := loop_publish_clock cfg inp.now_ms st1
      have hle2 : (loop_publish cfg inp.now_ms st1).1.last_published_ms ≤ inp.now_ms := by
        rcases p2 with e | e
        · rw [e]; exact hb.2
        · rw [e]
      refine List.Pairwise.cons ?_ (ih _ inp.now_ms (p4 hz1).1 hle2 htimed2)
      intro q hq hne hqne
      have := blockRuns_after_clock cfg rest _ inp.now_ms hle2 htimed2 q hq hqne
      rw [loop_publish_resets cfg inp.now_ms st1 hz1 hne] at this
      exact this

/-- A temperature publish of the block carries the reading, and the block
stores the reading in `last_published_temp`; the block changes
`last_published_temp` in no other way. -/
theorem loop_publish_temp_store (cfg : Config) (now_ms : Int) (st : State) :
    (∀ payload, Effect.publish OutTopic.TOPIC_OUT_TEMP payload ∈ (loop_publish cfg now_ms st).2 →
      payload = toString (temp_i16 st.current_temp) ∧
      (loop_publish cfg now_ms st).1.last_published_temp = st.current_temp ∧
      (loop_publish cfg now_ms st).2 =
        [Effect.publish OutTopic.TOPIC_OUT_TEMP (toString (temp_i16 st.current_temp))]) ∧
    ((loop_publish cfg now_ms st).1.last_published_temp ≠ st.last_published_temp →
      (loop_publish cfg now_ms st).2 =
        [Effect.publish OutTopic.TOPIC_OUT_TEMP (toString (temp_i16 st.current_temp))]) := by
  rw [loop_publish_by_branch cfg now_ms st]
  cases hbr : publishBranch cfg now_ms st with
  | idle => simp
  | status => simp
  | sync => simp
  | temperature => simp
  | periodic =>
    simp only
    split_ifs <;> simp

/-- A temperature publish of the block while the reading is within the
threshold of `last_published_temp` is the periodic one: no sync is pending,
the periodic interval has elapsed, the cursor is on the temperature and is
advanced. -/
theorem loop_publish_temp_near (cfg : Config) (now_ms : Int) (st : State)
    (hnear : ¬ |st.current_temp - st.last_published_temp| > cfg.PUB_TEMP_THRESHOLD)
    (payload : String)
    (h : Effect.publish OutTopic.TOPIC_OUT_TEMP payload ∈ (loop_publish cfg now_ms st).2) :
    st.is_syncing = 0 ∧ now_ms - st.last_published_ms > cfg.PUB_PERIODIC_MS ∧
    st.data_to_publish = PUB_DATA_TEMP ∧
    (loop_publish cfg now_ms st).1.data_to_publish = PUB_DATA_TEMP + 1 := by
  simp only [loop_publish, Publish_PcStatus, Publish_Temperature, Publish_Connection,
    PUB_DATA_MAX, PUB_DATA_PC_STATUS, PUB_DATA_TEMP] at h ⊢
  split_ifs at h ⊢ <;> simp_all

/-- C1 (evaluation at the failing input): on the reset topic, with the device
on and the payload `f`, whose first character is not `t`, the callback still
pulses the reset line. -/
theorem reset_command_ignores_payload :
    bufferOf [102] 0 ≠ 116 ∧
    (Subscription_Callback Config.sample { State.init with current_pc_status := 1 }
        Config.sample.TOPIC_IN_PC_RESET (bufferOf [102]) 1).2
      = ResetPc Config.sample := by
  decide

/-- C2: on the power-command topic the callback resolves the target from the
first payload byte and calls `TogglePc` exactly once, with `TOGGLE_ON` for
target 1 and `TOGGLE_OFF` for target 0, when a target was resolved and differs
from `current_pc_status`; otherwise it does nothing.  In particular, with the
status on, the payload `t` gives no pulse and the payload `f` gives one
`TOGGLE_OFF` pulse. -/
theorem power_command_pulse (cfg : Config) (st : State) (payload : Nat → Nat) (length : Nat) :
    Subscription_Callback cfg st cfg.TOPIC_IN_PC_STATE payload length =
      (match resolveTarget (payload 0) with
      | some target =>
        if target ≠ st.current_pc_status then
          (st, TogglePc (if target = 1 then cfg.TOGGLE_ON else cfg.TOGGLE_OFF))
        else (st, [])
      | none => (st, [])) ∧
    (Subscription_Callback cfg { st with current_pc_status := 1 } cfg.TOPIC_IN_PC_STATE
        (bufferOf [116]) 1).2 = [] ∧
    (Subscription_Callback cfg { st with current_pc_status := 1 } cfg.TOPIC_IN_PC_STATE
        (bufferOf [102]) 1).2 = TogglePc cfg.TOGGLE_OFF := by
  refine ⟨?_, by simp [Subscription_Callback, bufferOf], by simp [Subscription_Callback, bufferOf]⟩
  unfold Subscription_Callback resolveTarget
  by_cases ht : payload 0 = 116
  · by_cases hc : st.current_pc_status = 1
    · simp [ht, hc]
    · have hc2 : ¬ (1 = st.current_pc_status) := fun h => hc h.symm
      simp [ht, hc2]
  · by_cases hf : payload 0 = 102
    · by_cases hc : st.current_pc_status = 0
      · simp [hf, hc]
      · have hc2 : ¬ (0 = st.current_pc_status) := fun h => hc h.symm
        simp [hf, hc2]
    · simp [ht, hf]

/-- C3: whatever the topic, the payload and the state, if the callback drives
the reset line active then `current_pc_status` is 1. -/
theorem reset_only_when_on (cfg : Config) (st : State) (topic : String)
    (payload : Nat → Nat) (length : Nat)
    (h : Effect.digitalWrite Pin.GPIO_OUT_RTSW Level.OUT_STATE_ACTIVE ∈
      (Subscription_Callback cfg st topic payload length).2) :
    st.current_pc_status = 1 := by
  by_contra hc
  simp only [Subscription_Callback, TogglePc, ResetPc, hc, if_false] at h
  split_ifs at h <;> simp at h

/-- Witness of C3: device on, reset topic, payload `t`. -/
theorem reset_only_when_on_witness :
    Effect.digitalWrite Pin.GPIO_OUT_RTSW Level.OUT_STATE_ACTIVE ∈
      (Subscription_Callback Config.sample { State.init with current_pc_status := 1 }
        "pc/reset" (bufferOf [116]) 1).2 ∧
    State.current_pc_status { State.init with current_pc_status := 1 } = 1 :=
  ⟨by decide, reset_only_when_on Config.sample _ "pc/reset" (bufferOf [116]) 1 (by decide)⟩

/-! ## The publish scheduling block -/

/-- C7: on an eligible tick on which both the status differs from the last
published one and the temperature moved by more than the threshold, the only
publish is the status publish: `last_published_status` becomes
`current_pc_status` and `last_published_temp`, `data_to_publish`, `sync_cnt`
and `is_syncing` keep their values. -/
theorem status_wins_tie (cfg : Config) (st : State) (now_ms : Int)
    (hgate : now_ms - st.last_published_ms > cfg.PUB_MIN_MS)
    (hstatus : st.current_pc_status ≠ st.last_published_status)
    (htemp : |st.current_temp - st.last_published_temp| > cfg.PUB_TEMP_THRESHOLD) :
    (loop_publish cfg now_ms st).2 =
        [Effect.publish OutTopic.TOPIC_OUT_PC_STATUS (toString st.current_pc_status)] ∧
      (loop_publish cfg now_ms st).1.last_published_status = st.current_pc_status ∧
      (loop_publish cfg now_ms st).1.last_published_temp = st.last_published_temp ∧
      (loop_publish cfg now_ms st).1.data_to_publish = st.data_to_publish ∧
      (loop_publish cfg now_ms st).1.sync_cnt = st.sync_cnt ∧
      (loop_publish cfg now_ms st).1.is_syncing = st.is_syncing := by
  simp [loop_publish, hgate, hstatus, Publish_PcStatus]

/-- Witness of C7: status 1 against published 0, 25 degrees against published
20, sync pending, at 2000 ms. -/
theorem status_wins_tie_witness :
    ((2000 : Int) - State.tie.last_published_ms > Config.sample.PUB_MIN_MS ∧
      State.tie.current_pc_status ≠ State.tie.last_published_status ∧
      |State.tie.current_temp - State.tie.last_published_temp|
        > Config.sample.PUB_TEMP_THRESHOLD) ∧
    (loop_publish Config.sample 2000 State.tie).2 =
        [Effect.publish OutTopic.TOPIC_OUT_PC_STATUS "1"] :=
  ⟨by decide!,
   (status_wins_tie Config.sample State.tie 2000 (by decide) (by decide) (by decide!)).1⟩

/-- C9 (counterexample): the not-ready reading -127 is published, as the
payload `-127`, by the temperature-change branch when 20 degrees were
published last, and by the periodic branch when the cursor is on the
temperature. -/
theorem sentinel_is_published :
    State.sensorLost.current_temp = -127 ∧
    (loop_publish Config.sample 2000 State.sensorLost).2 =
      [Effect.publish OutTopic.TOPIC_OUT_TEMP "-127"] ∧
    State.sensorNeverRead.current_temp = -127 ∧
    (loop_publish Config.sample 70000 State.sensorNeverRead).2 =
      [Effect.publish OutTopic.TOPIC_OUT_TEMP "-127"] := by
  decide!

/-- C9 (amended): the block has no guard on the not-ready reading.  With
`current_temp` equal to -127 the temperature is published exactly when the
tick is eligible, the status equals the last published one, and either -127
is further than the threshold from `last_published_temp`, or no sync is
pending, the periodic interval has elapsed and the cursor is on the
temperature; the payload is then `-127` and -127 is remembered as the last
published temperature. -/
theorem sentinel_publish_iff (cfg : Config) (st : State) (now_ms : Int)
    (h : st.current_temp = -127) :
    ((∃ payload, Effect.publish OutTopic.TOPIC_OUT_TEMP payload ∈ (loop_publish cfg now_ms st).2) ↔
      (now_ms - st.last_published_ms > cfg.PUB_MIN_MS ∧
        st.current_pc_status = st.last_published_status ∧
        (|(-127 : ℚ) - st.last_published_temp| > cfg.PUB_TEMP_THRESHOLD ∨
          (st.is_syncing = 0 ∧ now_ms - st.last_published_ms > cfg.PUB_PERIODIC_MS ∧
            st.data_to_publish = PUB_DATA_TEMP)))) ∧
    (∀ payload, Effect.publish OutTopic.TOPIC_OUT_TEMP payload ∈ (loop_publish cfg now_ms st).2 →
      payload = "-127" ∧ (loop_publish cfg now_ms st).1.last_published_temp = -127) := by
  have e : toString (temp_i16 (-127)) = "-127" := by decide!
  unfold loop_publish
  simp only [h, Publish_PcStatus, Publish_Temperature, Publish_Connection, PUB_DATA_MAX,
    PUB_DATA_PC_STATUS, PUB_DATA_TEMP, e]
  split_ifs <;> simp_all
  omega

/-- Witness of C9 (amended): in the initial state both temperatures are -127,
so an eligible tick publishes no temperature. -/
theorem sentinel_publish_iff_witness :
    State.init.current_temp = -127 ∧
    ¬ (∃ payload, Effect.publish OutTopic.TOPIC_OUT_TEMP payload ∈
        (loop_publish Config.sample 2000 State.init).2) :=
  ⟨rfl, fun hp =>
    absurd ((sentinel_publish_iff Config.sample State.init 2000 rfl).1.mp hp) (by decide!)⟩

/-- C10 (evaluation at the failing input): a reading of 20.6 is written into
the payload as `20`, since 20.6 + 0.05 is cut to 20. -/
theorem temperature_20_6_published_as_20 :
    temp_i16 (206 / 10) = 20 ∧
    (Publish_Temperature State.init (206 / 10)).2 =
      [Effect.publish OutTopic.TOPIC_OUT_TEMP "20"] := by
  decide!

/-! ## Debounce -/

/-- C4 (counterexample): with the 300 ms window, after the glitch the input
reads 1 from 1060 ms on; at 1360 ms it has held 1, which differs from the
debounced status 0, for 300 ms, which is at least the window and for the
first time so, and the debounced status is still 0. -/
theorem debounce_not_at_window :
    Config.sample.DEBOUNCE_STATUS_MS = 300 ∧
    (runLoop Config.sample (State.settled 0) (glitch ++ holdOne.take 2)).map
        (fun s => (s.current_pc_status, s.last_status_unstable_ms)) = some (0, 1060) ∧
    (runLoop Config.sample (State.settled 0) (glitch ++ holdOne)).map
        (fun s => (s.current_pc_status, s.last_status_unstable_ms)) = some (0, 1060) ∧
    (1360 : Int) - 1060 ≥ Config.sample.DEBOUNCE_STATUS_MS := by
  decide!

/-- C4 (amended): in a sequence of passes without reconnect, let the pass `x`
be the last of a run `run ++ [x]` of passes that all read the sample `v`, the
sample read before the run being different from `v`.  Then the passes return, after `x`
the variable `last_status_unstable_ms` is the time of the first pass of the
run, and `current_pc_status` changes in pass `x` exactly when `v` differs from
the status before the pass and `v` has been held for more than the debounce
window; the status then becomes `v`. -/
theorem debounce_acceptance (cfg : Config) (st : State) (a run : List TickInput)
    (x : TickInput) (v : Nat)
    (hconn : ∀ y ∈ a ++ run ++ [x], y.reconnect = none)
    (hrun : ∀ y ∈ run ++ [x], tmp_status cfg y.raw_status = v)
    (hprev : (match a.getLast? with
        | some y => tmp_status cfg y.raw_status
        | none => st.last_read_status) ≠ v) :
    ∃ before after first,
      runLoop cfg st (a ++ run) = some before ∧
      runLoop cfg st (a ++ run ++ [x]) = some after ∧
      (run ++ [x]).head? = some first ∧
      after.last_status_unstable_ms = first.now_ms ∧
      (after.current_pc_status ≠ before.current_pc_status ↔
        (v ≠ before.current_pc_status ∧
          x.now_ms - first.now_ms > cfg.DEBOUNCE_STATUS_MS)) ∧
      (after.current_pc_status ≠ before.current_pc_status → after.current_pc_status = v) := by
  have hca : ∀ y ∈ a, y.reconnect = none := fun y hy => hconn y (by simp [hy])
  have hcr : ∀ y ∈ run, y.reconnect = none := fun y hy => hconn y (by simp [hy])
  have hcx : x.reconnect = none := hconn x (by simp)
  have hvx : tmp_status cfg x.raw_status = v := hrun x (by simp)
  obtain ⟨s0, hs0⟩ := runLoop_connected cfg a st hca
  have h0 : s0.last_read_status ≠ v := by
    rw [runLoop_last_read cfg a st s0 hs0]; exact hprev
  cases run with
  | nil =>
    obtain ⟨after, tr, hl⟩ := loop_connected cfg x s0 hcx
    obtain ⟨u, hu, -, f2, f3, -⟩ := loop_debounce_fields cfg x s0 after tr hl
    rw [hvx] at f2 f3
    rw [if_pos (fun e => h0 e.symm)] at f2
    refine ⟨s0, after, x, by simpa using hs0, ?_, rfl, f2, ?_⟩
    · simp [runLoop_append, hs0, runLoop, hl]
    · have key := debounce_step_change v s0.current_pc_status after.current_pc_status _ _ f3
      rw [f2] at key
      exact key
  | cons f rest =>
    have hcf : f.reconnect = none := hcr f (List.mem_cons_self f rest)
    have hvf : tmp_status cfg f.raw_status = v := hrun f (by simp)
    obtain ⟨s1, tr1, hl1⟩ := loop_connected cfg f s0 hcf
    obtain ⟨u1, -, g1, g2, -, -⟩ := loop_debounce_fields cfg f s0 s1 tr1 hl1
    rw [hvf] at g1 g2
    rw [if_pos (fun e => h0 e.symm)] at g2
    obtain ⟨before, hb⟩ := runLoop_connected cfg rest s1
      (fun y hy => hcr y (List.mem_cons_of_mem f hy))
    obtain ⟨k1, k2⟩ := runLoop_hold cfg v rest s1 before
      (fun y hy => ⟨hcr y (List.mem_cons_of_mem f hy), hrun y (by simp [hy])⟩) g1 hb
    obtain ⟨after, tr, hl⟩ := loop_connected cfg x before hcx
    obtain ⟨u, hu, -, f2, f3, -⟩ := loop_debounce_fields cfg x before after tr hl
    simp only [hcx] at hu
    rw [hvx] at f2 f3
    rw [k1] at f2
    simp only [ne_eq, not_true_eq_false, if_false] at f2
    have hu2 : after.last_status_unstable_ms = f.now_ms := by rw [f2, hu, k2, g2]
    have hbefore : runLoop cfg st (a ++ f :: rest) = some before := by
      simp [runLoop_append, hs0, runLoop, hl1, hb]
    refine ⟨before, after, f, hbefore, ?_, rfl, hu2, ?_⟩
    · rw [runLoop_append, hbefore]
      simp [runLoop, hl]
    · have key :=
        debounce_step_change v before.current_pc_status after.current_pc_status _ _ f3
      rw [hu2] at key
      exact key

/-- Witness of C4 (amended): the scenario of the claim.  The input flips
0, 1, 0 within 50 ms, then holds 1 from 1060 ms; the debounced status stays 0
up to 1360 ms and becomes 1 in the pass at 1410 ms, 350 ms into the run. -/
theorem debounce_acceptance_witness :
    ((∀ y ∈ glitch ++ holdOne ++ [TickInput.quiet 1410 1], y.reconnect = none) ∧
      (∀ y ∈ holdOne ++ [TickInput.quiet 1410 1],
        tmp_status Config.sample y.raw_status = 1) ∧
      (match glitch.getLast? with
        | some y => tmp_status Config.sample y.raw_status
        | none => (State.settled 0).last_read_status) ≠ 1) ∧
    (List.range 8).map (fun n =>
        (runLoop Config.sample (State.settled 0)
          ((glitch ++ holdOne ++ [TickInput.quiet 1410 1]).take n)).map
            State.current_pc_status)
      = [some 0, some 0, some 0, some 0, some 0, some 0, some 0, some 1] ∧
    ∃ before after first,
      runLoop Config.sample (State.settled 0) (glitch ++ holdOne) = some before ∧
      runLoop Config.sample (State.settled 0) (glitch ++ holdOne ++ [TickInput.quiet 1410 1])
        = some after ∧
      (holdOne ++ [TickInput.quiet 1410 1]).head? = some first ∧
      after.last_status_unstable_ms = first.now_ms ∧
      (after.current_pc_status ≠ before.current_pc_status ↔
        ((1 : Nat) ≠ before.current_pc_status ∧
          (TickInput.quiet 1410 1).now_ms - first.now_ms
            > Config.sample.DEBOUNCE_STATUS_MS)) ∧
      (after.current_pc_status ≠ before.current_pc_status → after.current_pc_status = 1) :=
  have h1 : ∀ y ∈ glitch ++ holdOne ++ [TickInput.quiet 1410 1], y.reconnect = none := by
    intro y hy
    simp only [glitch, holdOne, List.cons_append, List.nil_append, List.mem_cons,
      List.mem_singleton, List.not_mem_nil, or_false] at hy
    rcases hy with h | h | h | h | h | h | h <;> rw [h] <;> rfl
  have h2 : ∀ y ∈ holdOne ++ [TickInput.quiet 1410 1],
      tmp_status Config.sample y.raw_status = 1 := by
    intro y hy
    simp only [holdOne, List.cons_append, List.nil_append, List.mem_cons,
      List.mem_singleton, List.not_mem_nil, or_false] at hy
    rcases hy with h | h | h | h <;> rw [h] <;> rfl
  have h3 : (match glitch.getLast? with
      | some y => tmp_status Config.sample y.raw_status
      | none => (State.settled 0).last_read_status) ≠ 1 := by decide
  ⟨⟨h1, h2, h3⟩, by decide!,
    debounce_acceptance Config.sample (State.settled 0) glitch holdOne
      (TickInput.quiet 1410 1) 1 h1 h2 h3⟩

/-- C5: start from a state settled on `s` (the debounced status and the sample
read last are both `s`) and run passes with non-decreasing time stamps.  If
every run of consecutive samples different from `s` lasts less than
`DEBOUNCE_STATUS_MS`, then `current_pc_status` is `s` after every pass; and if
`s` was also the status published last, it stays the status published last,
so the status-change branch of the publish block never fires. -/
theorem no_false_transition (cfg : Config) (s : Nat) (st : State) (prev : Int)
    (inputs : List TickInput)
    (hcur : st.current_pc_status = s) (hread : st.last_read_status = s)
    (htimed : Timed prev inputs) (hshort : ShortRuns cfg s inputs) :
    ∀ pre st2, pre <+: inputs → runLoop cfg st pre = some st2 →
      st2.current_pc_status = s ∧
      (st.last_published_status = s → st2.last_published_status = s) :=
  no_false_transition_aux cfg s inputs [] st prev hcur (by simp) (fun _ => hread) (by simp)
    htimed (by simpa using hshort)

/-- Witness of C5: the glitch 0, 1, 0 within 50 ms on a line settled at 0, with
the 300 ms window; the three passes return and the status stays 0. -/
theorem no_false_transition_witness :
    (Timed 0 glitch ∧ ShortRuns Config.sample 0 glitch) ∧
    (runLoop Config.sample (State.settled 0) glitch).isSome = true ∧
    ∀ st2, runLoop Config.sample (State.settled 0) glitch = some st2 →
      st2.current_pc_status = 0 :=
  have h1 : Timed 0 glitch := by
    simp [Timed, glitch, TickInput.clockOk, TickInput.quiet]
  have h2 : ShortRuns Config.sample 0 glitch := by
    intro pre seg post a b hsplit hseg ha hb
    have hsub : ∀ y ∈ seg, y = TickInput.quiet 1020 1 := by
      intro y hy
      have hm : y ∈ glitch := by rw [hsplit]; simp [hy]
      have hne := hseg y hy
      simp only [glitch, List.mem_cons, List.mem_singleton, List.not_mem_nil, or_false] at hm
      rcases hm with h | h | h
      · rw [h] at hne; exact absurd rfl hne
      · exact h
      · rw [h] at hne; exact absurd rfl hne
    rw [hsub a (List.mem_of_mem_head? ha), hsub b (List.mem_of_getLast?_eq_some hb)]
    decide
  ⟨⟨h1, h2⟩, by decide!, fun st2 h =>
    (no_false_transition Config.sample 0 (State.settled 0) 0 glitch rfl rfl h1 h2
      glitch st2 List.prefix_rfl h).1⟩

/-! ## Sync announcement -/

/-- C8 (evaluation at the failing input): from power-up the first pass finds
the client disconnected and `Mqtt_Reconnect` succeeds at the third attempt;
after that pass `is_syncing` is still 0.  The following passes publish the
status and the temperature, and the pass at 13800 ms, which is eligible and
has neither a status change nor a temperature change, publishes nothing: no
sync announcement is issued. -/
theorem reconnect_does_not_raise_sync :
    (runLoop Config.sample State.init [TickInput.boot]).map
        (fun s => (s.connect_cnt, s.is_syncing, s.sync_cnt)) = some (1, 0, 0) ∧
    traces Config.sample State.init bootRun =
      [[Effect.delay 5000, Effect.delay 5000,
        Effect.publish OutTopic.TOPIC_OUT_CONN "lolin32",
        Effect.subscribe "pc/state", Effect.subscribe "pc/reset"],
       [],
       [Effect.publish OutTopic.TOPIC_OUT_PC_STATUS "1"],
       [Effect.publish OutTopic.TOPIC_OUT_TEMP "20"],
       []] := by
  decide!

/-! ## Periodic rotation and status payload -/

/-- C11: in every execution from the initial state, every pass that takes the
periodic branch publishes exactly one category, and the categories alternate,
starting with the status: the periodic publish number `k`, counted from 0, is
the status when `k` is even and the temperature when `k` is odd. -/
theorem periodic_rotation (cfg : Config) (ticks : List TickInput) (k : Nat)
    (tr : List Effect) (h : (periodicLog cfg State.init ticks)[k]? = some tr) :
    ∃ payload, tr =
      [Effect.publish
        (if k % 2 = 0 then OutTopic.TOPIC_OUT_PC_STATUS else OutTopic.TOPIC_OUT_TEMP)
        payload] := by
  simpa [State.init, PUB_DATA_PC_STATUS] using
    periodicLog_alternates cfg ticks State.init k tr h

/-- Witness of C11: three periodic publishes, 61 seconds apart, after the
status and the temperature were published on change: status, temperature,
status. -/
theorem periodic_rotation_witness :
    periodicLog Config.sample State.init periodicTicks =
      [[Effect.publish OutTopic.TOPIC_OUT_PC_STATUS "0"],
       [Effect.publish OutTopic.TOPIC_OUT_TEMP "20"],
       [Effect.publish OutTopic.TOPIC_OUT_PC_STATUS "0"]] ∧
    (periodicLog Config.sample State.init periodicTicks)[1]? =
      some [Effect.publish OutTopic.TOPIC_OUT_TEMP "20"] ∧
    ∃ payload, [Effect.publish OutTopic.TOPIC_OUT_TEMP "20"] =
      [Effect.publish
        (if 1 % 2 = 0 then OutTopic.TOPIC_OUT_PC_STATUS else OutTopic.TOPIC_OUT_TEMP)
        payload] :=
  have h : (periodicLog Config.sample State.init periodicTicks)[1]? =
      some [Effect.publish OutTopic.TOPIC_OUT_TEMP "20"] := by decide!
  ⟨by decide!, h, periodic_rotation Config.sample periodicTicks 1 _ h⟩

/-- C12 (counterexample): from the initial state, with samples 0 and 1 only,
the input changes between two passes that are more than the periodic interval
apart, so the status is not debounced yet; the periodic branch passes the
initial value 255 to `Publish_PcStatus` and the payload is `255`. -/
theorem status_255_is_published :
    (∀ inp ∈ noisyTicks, inp.raw_status = 0 ∨ inp.raw_status = 1) ∧
    (blockRuns Config.sample State.init noisyTicks).map
        (fun e => (e.2.1.current_pc_status, publishBranch Config.sample e.1 e.2.1, e.2.2)) =
      [(255, Branch.temperature, [Effect.publish OutTopic.TOPIC_OUT_TEMP "20"]),
       (255, Branch.periodic, [Effect.publish OutTopic.TOPIC_OUT_PC_STATUS "255"])] := by
  refine ⟨?_, by decide!⟩
  intro inp hi
  simp only [noisyTicks, List.mem_cons, List.mem_singleton, List.not_mem_nil, or_false] at hi
  rcases hi with h | h <;> rw [h] <;> simp [TickInput.quiet]

/-- C12 (amended): in every execution from the initial state with samples 0
and 1 only, every status payload is `0` or `1`, except that the periodic branch
publishes `255` while the status has not been debounced yet
(`current_pc_status` still 255); the status-change branch never publishes
anything but `0` or `1`. -/
theorem status_payload_domain (cfg : Config) (ticks : List TickInput)
    (hraw : ∀ inp ∈ ticks, inp.raw_status = 0 ∨ inp.raw_status = 1) :
    ∀ e ∈ blockRuns cfg State.init ticks, ∀ payload,
      Effect.publish OutTopic.TOPIC_OUT_PC_STATUS payload ∈ e.2.2 →
      (payload = "0" ∨ payload = "1") ∨
      (payload = "255" ∧ e.2.1.current_pc_status = 255 ∧
        publishBranch cfg e.1 e.2.1 = Branch.periodic) :=
  status_payload_aux cfg ticks State.init (Or.inr (Or.inr ⟨rfl, rfl⟩)) hraw

/-- Witness of C12 (amended): the passes of `periodicTicks` read 0 throughout;
the status is published three times, as `0`. -/
theorem status_payload_domain_witness :
    (∀ inp ∈ periodicTicks, inp.raw_status = 0 ∨ inp.raw_status = 1) ∧
    (blockRuns Config.sample State.init periodicTicks).map (fun e => e.2.2) =
      [[], [Effect.publish OutTopic.TOPIC_OUT_PC_STATUS "0"],
       [Effect.publish OutTopic.TOPIC_OUT_TEMP "20"],
       [Effect.publish OutTopic.TOPIC_OUT_PC_STATUS "0"],
       [Effect.publish OutTopic.TOPIC_OUT_TEMP "20"],
       [Effect.publish OutTopic.TOPIC_OUT_PC_STATUS "0"]] ∧
    ∀ e ∈ blockRuns Config.sample State.init periodicTicks, ∀ payload,
      Effect.publish OutTopic.TOPIC_OUT_PC_STATUS payload ∈ e.2.2 →
      (payload = "0" ∨ payload = "1") ∨
      (payload = "255" ∧ e.2.1.current_pc_status = 255 ∧
        publishBranch Config.sample e.1 e.2.1 = Branch.periodic) :=
  have h : ∀ inp ∈ periodicTicks, inp.raw_status = 0 ∨ inp.raw_status = 1 := by
    intro inp hi
    simp only [periodicTicks, List.mem_cons, List.mem_singleton, List.not_mem_nil,
      or_false] at hi
    rcases hi with h | h | h | h | h | h <;> rw [h] <;> simp [TickInput.quiet]
  ⟨h, by decide!, status_payload_domain Config.sample periodicTicks h⟩

/-- C13: in every execution of passes with non-decreasing time stamps, from any
state and with arbitrary samples, two passes in which `current_pc_status`
changes are more than `DEBOUNCE_STATUS_MS` apart. -/
theorem debounce_rate_limit (cfg : Config) (st : State) (prev : Int)
    (ticks : List TickInput) (htimed : Timed prev ticks) :
    (statusLog cfg st ticks).Pairwise (fun p q =>
      p.2.1 ≠ p.2.2 → q.2.1 ≠ q.2.2 → q.1 - p.1 > cfg.DEBOUNCE_STATUS_MS) :=
  statusLog_pairwise cfg ticks st prev htimed

/-- Witness of C13: the input goes to 1 at 50 ms and back to 0 at 500 ms; the
status changes in the passes at 400 ms and 900 ms, 500 ms apart with the
300 ms window. -/
theorem debounce_rate_limit_witness :
    Timed 0 flipTicks ∧
    statusLog Config.sample (State.settled 0) flipTicks =
      [(50, 0, 0), (400, 0, 1), (500, 1, 1), (600, 1, 1), (900, 1, 0)] ∧
    (statusLog Config.sample (State.settled 0) flipTicks).Pairwise (fun p q =>
      p.2.1 ≠ p.2.2 → q.2.1 ≠ q.2.2 → q.1 - p.1 > Config.sample.DEBOUNCE_STATUS_MS) :=
  have h : Timed 0 flipTicks := by
    simp [Timed, flipTicks, TickInput.clockOk, TickInput.quiet]
  ⟨h, by decide!, debounce_rate_limit Config.sample (State.settled 0) 0 flipTicks h⟩

/-! ## Publish throttle, interval clock and temperature trigger -/

/-- C6: in every execution of passes of `loop()` from the initial state with
non-decreasing time stamps, whatever the samples, the readings, the reconnects
and the inbound messages, two publishes issued by the publish scheduling block
are more than, hence at least, `PUB_MIN_MS` apart.  The sync-pending flag is a
global of the sketch that is 0 at power-up and that the sketch only ever sets
to 0.  A pass with `now_ms - last_published_ms ≤ PUB_MIN_MS`, in any state,
publishes nothing and leaves the state, with `last_published_status`,
`last_published_temp`, `last_published_ms`, `data_to_publish`, `sync_cnt` and
`is_syncing`, as it is. -/
theorem publish_throttle (cfg : Config) (ticks : List TickInput)
    (htimed : Timed 0 ticks) :
    (blockRuns cfg State.init ticks).Pairwise (fun p q =>
        p.2.2 ≠ [] → q.2.2 ≠ [] → q.1 - p.1 > cfg.PUB_MIN_MS) ∧
    (∀ (st : State) (now_ms : Int), now_ms - st.last_published_ms ≤ cfg.PUB_MIN_MS →
      loop_publish cfg now_ms st = (st, [])) :=
  ⟨blockRuns_pairwise cfg ticks State.init 0 rfl (le_refl _) htimed,
   fun st now_ms h => loop_publish_gate cfg now_ms st h⟩

/-- Witness of C6: six passes from power-up; the block publishes at 2001,
3100, 64000, 125000 and 186000 ms. -/
theorem publish_throttle_witness :
    Timed 0 periodicTicks ∧
    (blockRuns Config.sample State.init periodicTicks).map (fun e => (e.1, e.2.2)) =
      [(1500, []),
       (2001, [Effect.publish OutTopic.TOPIC_OUT_PC_STATUS "0"]),
       (3100, [Effect.publish OutTopic.TOPIC_OUT_TEMP "20"]),
       (64000, [Effect.publish OutTopic.TOPIC_OUT_PC_STATUS "0"]),
       (125000, [Effect.publish OutTopic.TOPIC_OUT_TEMP "20"]),
       (186000, [Effect.publish OutTopic.TOPIC_OUT_PC_STATUS "0"])] ∧
    (blockRuns Config.sample State.init periodicTicks).Pairwise (fun p q =>
        p.2.2 ≠ [] → q.2.2 ≠ [] → q.1 - p.1 > Config.sample.PUB_MIN_MS) :=
  have h1 : Timed 0 periodicTicks := by
    simp [Timed, periodicTicks, TickInput.clockOk, TickInput.quiet]
  ⟨h1, by decide!, (publish_throttle Config.sample periodicTicks h1).1⟩

/-- C15: on an eligible pass with the status equal to the one published last,
the publish block publishes the reading through the temperature-change branch
(a temperature publish that leaves the rotation cursor where it is) exactly
when the reading is further than `PUB_TEMP_THRESHOLD` from
`last_published_temp`; it then stores the reading in `last_published_temp`.
When the reading is within the threshold, a temperature publish can only be
the periodic one.  Every temperature publish of the block carries the reading
and stores it, the block changes `last_published_temp` in no other way, and
the part of a pass before the block never touches it.  So after a
temperature-change publish of a reading, a pass whose reading is within the
threshold of that reading publishes no temperature unless the periodic
interval has elapsed. -/
theorem temperature_trigger (cfg : Config) (st : State) (now_ms : Int)
    (hgate : now_ms - st.last_published_ms > cfg.PUB_MIN_MS)
    (hstatus : st.current_pc_status = st.last_published_status) :
    ((((loop_publish cfg now_ms st).2 =
          [Effect.publish OutTopic.TOPIC_OUT_TEMP (toString (temp_i16 st.current_temp))]) ∧
        (loop_publish cfg now_ms st).1.data_to_publish = st.data_to_publish) ↔
      |st.current_temp - st.last_published_temp| > cfg.PUB_TEMP_THRESHOLD) ∧
    (|st.current_temp - st.last_published_temp| > cfg.PUB_TEMP_THRESHOLD →
      loop_publish cfg now_ms st =
        ({ st with last_published_temp := st.current_temp, last_published_ms := now_ms },
         [Effect.publish OutTopic.TOPIC_OUT_TEMP (toString (temp_i16 st.current_temp))])) ∧
    (¬ |st.current_temp - st.last_published_temp| > cfg.PUB_TEMP_THRESHOLD →
      ∀ payload,
        Effect.publish OutTopic.TOPIC_OUT_TEMP payload ∈ (loop_publish cfg now_ms st).2 →
        st.is_syncing = 0 ∧ now_ms - st.last_published_ms > cfg.PUB_PERIODIC_MS ∧
        st.data_to_publish = PUB_DATA_TEMP ∧
        (loop_publish cfg now_ms st).1.data_to_publish = PUB_DATA_TEMP + 1) ∧
    (∀ payload,
      Effect.publish OutTopic.TOPIC_OUT_TEMP payload ∈ (loop_publish cfg now_ms st).2 →
      payload = toString (temp_i16 st.current_temp) ∧
      (loop_publish cfg now_ms st).1.last_published_temp = st.current_temp) ∧
    ((loop_publish cfg now_ms st).1.last_published_temp ≠ st.last_published_temp →
      (loop_publish cfg now_ms st).2 =
        [Effect.publish OutTopic.TOPIC_OUT_TEMP (toString (temp_i16 st.current_temp))]) ∧
    (∀ (inp : TickInput) (st0 st1 : State) (tr : List Effect),
      loop_head cfg inp st0 = some (st1, tr) →
      st1.last_published_temp = st0.last_published_temp) ∧
    (∀ (inp : TickInput) (st1 : State) (tr : List Effect) (now2 : Int),
      |st.current_temp - st.last_published_temp| > cfg.PUB_TEMP_THRESHOLD →
      loop_head cfg inp (loop_publish cfg now_ms st).1 = some (st1, tr) →
      |st1.current_temp - st.current_temp| ≤ cfg.PUB_TEMP_THRESHOLD →
      now2 - st1.last_published_ms ≤ cfg.PUB_PERIODIC_MS →
      ∀ payload,
        Effect.publish OutTopic.TOPIC_OUT_TEMP payload ∉ (loop_publish cfg now2 st1).2) := by
  have hpub : |st.current_temp - st.last_published_temp| > cfg.PUB_TEMP_THRESHOLD →
      loop_publish cfg now_ms st =
        ({ st with last_published_temp := st.current_temp, last_published_ms := now_ms },
         [Effect.publish OutTopic.TOPIC_OUT_TEMP (toString (temp_i16 st.current_temp))]) := by
    intro h
    simp [loop_publish, hgate, hstatus, h, Publish_Temperature]
  have hstore := loop_publish_temp_store cfg now_ms st
  refine ⟨⟨?_, ?_⟩, hpub, fun hn payload hp => loop_publish_temp_near cfg now_ms st hn payload hp,
    fun payload hp => ⟨(hstore.1 payload hp).1, (hstore.1 payload hp).2.1⟩, hstore.2, ?_, ?_⟩
  · rintro ⟨htr, hcur⟩
    by_contra hn
    have hmem : Effect.publish OutTopic.TOPIC_OUT_TEMP (toString (temp_i16 st.current_temp)) ∈
        (loop_publish cfg now_ms st).2 := by rw [htr]; simp
    obtain ⟨-, -, h3, h4⟩ := loop_publish_temp_near cfg now_ms st hn _ hmem
    rw [hcur, h3] at h4
    omega
  · intro h
    rw [hpub h]
    exact ⟨rfl, rfl⟩
  · intro inp st0 st1 tr h
    exact (loop_head_frame cfg inp st0 st1 tr h).2.1
  · intro inp st1 tr now2 h hh hnear hper payload hp
    have hl := (loop_head_frame cfg inp _ st1 tr hh).2.1
    rw [hpub h] at hl
    simp only at hl
    have hn : ¬ |st1.current_temp - st1.last_published_temp| > cfg.PUB_TEMP_THRESHOLD := by
      rw [hl]; exact not_lt.mpr hnear
    obtain ⟨-, h2, -, -⟩ := loop_publish_temp_near cfg now2 st1 hn payload hp
    omega

/-- Witness of C15: 20 degrees published last, threshold 0.5, eligible pass at
2000 ms with the status unchanged.  The reading 20.4 publishes nothing; the
reading 20.6 is published by the temperature-change branch and stored in
`last_published_temp`. -/
theorem temperature_trigger_witness :
    ((2000 : Int) - (State.reading (206 / 10)).last_published_ms > Config.sample.PUB_MIN_MS ∧
      (State.reading (206 / 10)).current_pc_status =
        (State.reading (206 / 10)).last_published_status ∧
      |(State.reading (206 / 10)).current_temp - (State.reading (206 / 10)).last_published_temp|
        > Config.sample.PUB_TEMP_THRESHOLD) ∧
    loop_publish Config.sample 2000 (State.reading (204 / 10)) =
      (State.reading (204 / 10), []) ∧
    (loop_publish Config.sample 2000 (State.reading (206 / 10))).2 =
      [Effect.publish OutTopic.TOPIC_OUT_TEMP "20"] ∧
    loop_publish Config.sample 2000 (State.reading (206 / 10)) =
      ({ State.reading (206 / 10) with
          last_published_temp := (State.reading (206 / 10)).current_temp,
          last_published_ms := 2000 },
       [Effect.publish OutTopic.TOPIC_OUT_TEMP
          (toString (temp_i16 (State.reading (206 / 10)).current_temp))]) :=
  ⟨by decide!, by decide!, by decide!,
    (temperature_trigger Config.sample (State.reading (206 / 10)) 2000
      (by decide!) (by decide!)).2.1 (by decide!)⟩

/-! ## Commands and pulses -/

/-- C17: the callback returns the state it was given, so `current_pc_status`,
`last_read_status`, `last_status_unstable_ms` and the publish state are
untouched.  Of the steps of `loop()`, the connection handling, `client.loop()`,
the temperature refresh and the publish block leave `current_pc_status` as it
is: only the debounce step assigns it. -/
theorem callback_fire_and_forget (cfg : Config) (st : State) (topic : String)
    (payload : Nat → Nat) (length : Nat) (inp : TickInput) (now_ms : Int) :
    (Subscription_Callback cfg st topic payload length).1 = st ∧
    (client_loop cfg inp.inbox st).1 = st ∧
    (loop_connection cfg inp st).map (fun r => r.1.current_pc_status) =
      (loop_connection cfg inp st).map (fun _ => st.current_pc_status) ∧
    (loop_temperature cfg inp st).current_pc_status = st.current_pc_status ∧
    (loop_publish cfg now_ms st).1.current_pc_status = st.current_pc_status := by
  refine ⟨Subscription_Callback_state cfg st topic payload length,
    client_loop_state cfg inp.inbox st, ?_, (loop_temperature_fields cfg inp st).1,
    (loop_publish_debounce_fields cfg now_ms st).1⟩
  unfold loop_connection
  cases inp.reconnect with
  | none => rfl
  | some r =>
    dsimp only
    cases hm : Mqtt_Reconnect cfg r.millis_start r.attempts <;> simp

/-- C18: one call of the callback does nothing or performs exactly one pulse:
`TogglePc` on the power-switch line for the power-command topic, `ResetPc` on
the reset-switch line for the reset-command topic, nothing for any other
topic.  A pulse is the sequence active, delay, inactive on one pin, so the
callback writes at most one line and both lines are inactive when it
returns. -/
theorem single_pulse (cfg : Config) (st : State) (topic : String)
    (payload : Nat → Nat) (length : Nat) :
    (cfg.TOPIC_IN_PC_STATE = topic →
      (Subscription_Callback cfg st topic payload length).2 = [] ∨
      (Subscription_Callback cfg st topic payload length).2 = TogglePc cfg.TOGGLE_ON ∨
      (Subscription_Callback cfg st topic payload length).2 = TogglePc cfg.TOGGLE_OFF) ∧
    (cfg.TOPIC_IN_PC_STATE ≠ topic → cfg.TOPIC_IN_PC_RESET = topic →
      (Subscription_Callback cfg st topic payload length).2 = [] ∨
      (Subscription_Callback cfg st topic payload length).2 = ResetPc cfg) ∧
    (cfg.TOPIC_IN_PC_STATE ≠ topic → cfg.TOPIC_IN_PC_RESET ≠ topic →
      (Subscription_Callback cfg st topic payload length).2 = []) ∧
    (∀ d : Int, TogglePc d =
      [Effect.digitalWrite Pin.GPIO_OUT_PWSW Level.OUT_STATE_ACTIVE, Effect.delay d,
       Effect.digitalWrite Pin.GPIO_OUT_PWSW Level.OUT_STATE_INACTIVE]) ∧
    ResetPc cfg =
      [Effect.digitalWrite Pin.GPIO_OUT_RTSW Level.OUT_STATE_ACTIVE,
       Effect.delay cfg.TOGGLE_ON,
       Effect.digitalWrite Pin.GPIO_OUT_RTSW Level.OUT_STATE_INACTIVE] ∧
    (pinsWritten (Subscription_Callback cfg st topic payload length).2 = [] ∨
      pinsWritten (Subscription_Callback cfg st topic payload length).2 =
        [Pin.GPIO_OUT_PWSW, Pin.GPIO_OUT_PWSW] ∨
      pinsWritten (Subscription_Callback cfg st topic payload length).2 =
        [Pin.GPIO_OUT_RTSW, Pin.GPIO_OUT_RTSW]) ∧
    (∀ pin : Pin,
      pinLevel pin Level.OUT_STATE_INACTIVE
        (Subscription_Callback cfg st topic payload length).2 = Level.OUT_STATE_INACTIVE) := by
  have hforms :
      (cfg.TOPIC_IN_PC_STATE = topic →
        (Subscription_Callback cfg st topic payload length).2 = [] ∨
        (Subscription_Callback cfg st topic payload length).2 = TogglePc cfg.TOGGLE_ON ∨
        (Subscription_Callback cfg st topic payload length).2 = TogglePc cfg.TOGGLE_OFF) ∧
      (cfg.TOPIC_IN_PC_STATE ≠ topic → cfg.TOPIC_IN_PC_RESET = topic →
        (Subscription_Callback cfg st topic payload length).2 = [] ∨
        (Subscription_Callback cfg st topic payload length).2 = ResetPc cfg) ∧
      (cfg.TOPIC_IN_PC_STATE ≠ topic → cfg.TOPIC_IN_PC_RESET ≠ topic →
        (Subscription_Callback cfg st topic payload length).2 = []) := by
    unfold Subscription_Callback
    dsimp only
    refine ⟨fun h1 => ?_, fun h1 h2 => ?_, fun h1 h2 => ?_⟩
    · rw [if_pos h1]
      split_ifs <;> simp
    · rw [if_neg h1, if_pos h2]
      split_ifs <;> simp
    · rw [if_neg h1, if_neg h2]
  have hcases : (Subscription_Callback cfg st topic payload length).2 = [] ∨
      (Subscription_Callback cfg st topic payload length).2 = TogglePc cfg.TOGGLE_ON ∨
      (Subscription_Callback cfg st topic payload length).2 = TogglePc cfg.TOGGLE_OFF ∨
      (Subscription_Callback cfg st topic payload length).2 = ResetPc cfg := by
    by_cases h1 : cfg.TOPIC_IN_PC_STATE = topic
    · rcases hforms.1 h1 with h | h | h
      · exact Or.inl h
      · exact Or.inr (Or.inl h)
      · exact Or.inr (Or.inr (Or.inl h))
    · by_cases h2 : cfg.TOPIC_IN_PC_RESET = topic
      · rcases hforms.2.1 h1 h2 with h | h
        · exact Or.inl h
        · exact Or.inr (Or.inr (Or.inr h))
      · exact Or.inl (hforms.2.2 h1 h2)
  refine ⟨hforms.1, hforms.2.1, hforms.2.2, fun _ => rfl, rfl, ?_, ?_⟩
  · rcases hcases with h | h | h | h <;> rw [h]
    · left; rfl
    · right; left; rfl
    · right; left; rfl
    · right; right; rfl
  · intro pin
    rcases hcases with h | h | h | h <;> rw [h] <;> cases pin <;> rfl

/-- Witness of C18: reset topic, device on, payload `t`: one pulse on the reset
line. -/
theorem single_pulse_witness :
    (Config.sample.TOPIC_IN_PC_STATE ≠ "pc/reset" ∧
      Config.sample.TOPIC_IN_PC_RESET = "pc/reset") ∧
    (Subscription_Callback Config.sample { State.init with current_pc_status := 1 }
        "pc/reset" (bufferOf [116]) 1).2 = ResetPc Config.sample ∧
    ((Subscription_Callback Config.sample { State.init with current_pc_status := 1 }
        "pc/reset" (bufferOf [116]) 1).2 = [] ∨
     (Subscription_Callback Config.sample { State.init with current_pc_status := 1 }
        "pc/reset" (bufferOf [116]) 1).2 = ResetPc Config.sample) :=
  ⟨⟨by decide, rfl⟩, by decide,
    (single_pulse Config.sample { State.init with current_pc_status := 1 } "pc/reset"
      (bufferOf [116]) 1).2.1 (by decide) rfl⟩

/-! ## Reconnect and hard timeout -/

/-- C16: `Mqtt_Reconnect` over an arbitrary sequence of attempts.  The device
is restarted exactly when some attempt fails with more than 2 * 60000 ms
elapsed at the check that follows it, all attempts before it having failed
within the timeout; the restart is then the last effect and the only restart,
and nothing is published.  The function returns connected exactly when an
attempt succeeds after attempts that all failed within the timeout; it then
has published the client id once on the connection topic and subscribed once
to each command topic, in that order, without a restart.  When every failed
attempt takes its five-second delay, 25 attempts are enough for the call to be
over one way or the other.  For clock readings that do not wrap, the elapsed
time of the check is the difference of the readings. -/
theorem hard_timeout_restart (cfg : Config) (millis_start : Nat) (attempts : List Attempt) :
    ((∃ tr, Mqtt_Reconnect cfg millis_start attempts = Reconnect.restarted tr) ↔
      ∃ pre a post, attempts = pre ++ a :: post ∧
        (∀ b ∈ pre, b.connect_ok = false ∧ elapsed32 millis_start b ≤ 2 * 60000) ∧
        a.connect_ok = false ∧ elapsed32 millis_start a > 2 * 60000) ∧
    (∀ tr, Mqtt_Reconnect cfg millis_start attempts = Reconnect.restarted tr →
      tr.count Effect.restart = 1 ∧ tr.getLast? = some Effect.restart ∧
      ∀ topic payload, Effect.publish topic payload ∉ tr) ∧
    ((∃ tr, Mqtt_Reconnect cfg millis_start attempts = Reconnect.connected tr) ↔
      ∃ pre a post, attempts = pre ++ a :: post ∧
        (∀ b ∈ pre, b.connect_ok = false ∧ elapsed32 millis_start b ≤ 2 * 60000) ∧
        a.connect_ok = true) ∧
    (∀ tr, Mqtt_Reconnect cfg millis_start attempts = Reconnect.connected tr →
      ∃ n, tr = List.replicate n (Effect.delay 5000) ++
        [Effect.publish OutTopic.TOPIC_OUT_CONN (cfg.MQTT_CLIENT_ID.take 29),
         Effect.subscribe cfg.TOPIC_IN_PC_STATE, Effect.subscribe cfg.TOPIC_IN_PC_RESET]) ∧
    (25 ≤ attempts.length →
      (∀ k b, attempts[k]? = some b → 5000 * (k + 1) ≤ elapsed32 millis_start b) →
      ∃ tr, Mqtt_Reconnect cfg millis_start attempts = Reconnect.connected tr ∨
        Mqtt_Reconnect cfg millis_start attempts = Reconnect.restarted tr) ∧
    (∀ a : Attempt, millis_start ≤ a.millis_after → a.millis_after < 4294967296 →
      elapsed32 millis_start a = a.millis_after - millis_start) := by
  have key := reconnect_cases cfg millis_start attempts
  refine ⟨⟨?_, ?_⟩, ?_, ⟨?_, ?_⟩, ?_, ?_, ?_⟩
  · rintro ⟨tr, htr⟩
    rcases key with ⟨-, h⟩ | ⟨pre, a, post, -, -, -, h⟩ | ⟨pre, a, post, he, hpre, hf, ht, -⟩
    · rw [h] at htr; simp at htr
    · rw [h] at htr; simp at htr
    · exact ⟨pre, a, post, he, hpre, hf, ht⟩
  · rintro ⟨pre, a, post, he, hpre, hf, ht⟩
    exact ⟨_, by rw [he]; exact reconnect_timeout cfg millis_start pre post a hpre hf ht⟩
  · intro tr htr
    rcases key with ⟨-, h⟩ | ⟨pre, a, post, -, -, -, h⟩ | ⟨pre, a, post, -, -, -, -, h⟩
    · rw [h] at htr; simp at htr
    · rw [h] at htr; simp at htr
    · rw [h] at htr
      simp only [Reconnect.restarted.injEq] at htr
      subst htr
      refine ⟨?_, List.getLast?_concat _, ?_⟩
      · rw [List.count_append, List.count_replicate]
        simp
      · intro topic payload hm
        rcases List.mem_append.mp hm with hm | hm
        · have := List.eq_of_mem_replicate hm
          simp at this
        · simp at hm
  · rintro ⟨tr, htr⟩
    rcases key with ⟨-, h⟩ | ⟨pre, a, post, he, hpre, hok, -⟩ | ⟨pre, a, post, -, -, -, -, h⟩
    · rw [h] at htr; simp at htr
    · exact ⟨pre, a, post, he, hpre, hok⟩
    · rw [h] at htr; simp at htr
  · rintro ⟨pre, a, post, he, hpre, hok⟩
    exact ⟨_, by rw [he]; exact reconnect_success cfg millis_start pre post a hpre hok⟩
  · intro tr htr
    rcases key with ⟨-, h⟩ | ⟨pre, a, post, -, -, -, h⟩ | ⟨pre, a, post, -, -, -, -, h⟩
    · rw [h] at htr; simp at htr
    · rw [h] at htr
      simp only [Reconnect.connected.injEq] at htr
      exact ⟨pre.length, htr.symm⟩
    · rw [h] at htr; simp at htr
  · intro hlen hdelay
    rcases key with ⟨hall, -⟩ | ⟨pre, a, post, -, -, -, h⟩ | ⟨pre, a, post, -, -, -, -, h⟩
    · exfalso
      have hlt : 24 < attempts.length := by omega
      have hget : attempts[24]? = some attempts[24] := List.getElem?_eq_getElem hlt
      have h1 := hdelay 24 _ hget
      have h2 := (hall _ (List.getElem_mem hlt)).2
      omega
    · exact ⟨_, Or.inl h⟩
    · exact ⟨_, Or.inr h⟩
  · intro a h1 h2
    unfold elapsed32
    omega

/-- Witness of C16: a reconnect that begins at 100 ms; two attempts fail
within the timeout and the third fails with 120100 ms elapsed: three delays,
then the restart.  With the attempts of the power-up pass the third attempt
succeeds: two delays, the announcement and the two subscriptions. -/
theorem hard_timeout_restart_witness :
    (lateAttempts = [{ connect_ok := false, millis_after := 5200 },
        { connect_ok := false, millis_after := 60000 }] ++
        { connect_ok := false, millis_after := 120200 } :: [] ∧
      elapsed32 100 { connect_ok := false, millis_after := 120200 } > 2 * 60000) ∧
    Mqtt_Reconnect Config.sample 100 lateAttempts =
      Reconnect.restarted
        [Effect.delay 5000, Effect.delay 5000, Effect.delay 5000, Effect.restart] ∧
    Mqtt_Reconnect Config.sample 100
        [{ connect_ok := false, millis_after := 5200 },
         { connect_ok := false, millis_after := 10300 },
         { connect_ok := true, millis_after := 10400 }] =
      Reconnect.connected
        [Effect.delay 5000, Effect.delay 5000,
         Effect.publish OutTopic.TOPIC_OUT_CONN "lolin32",
         Effect.subscribe "pc/state", Effect.subscribe "pc/reset"] ∧
    ∃ tr, Mqtt_Reconnect Config.sample 100 lateAttempts = Reconnect.restarted tr :=
  ⟨⟨rfl, by decide!⟩, by decide!, by decide!,
    (hard_timeout_restart Config.sample 100 lateAttempts).1.mpr
      ⟨[{ connect_ok := false, millis_after := 5200 },
        { connect_ok := false, millis_after := 60000 }],
       { connect_ok := false, millis_after := 120200 }, [], rfl,
       by decide!, rfl, by decide!⟩⟩

end PcPower
